import Mathlib

/-!
Verification development for the dolphin-slippi-tools updater
(`app-update.go` and the legacy revision carrying `partialUpdateGen`).

The Go source is shallowly embedded: pure path helpers from Go's
`path/filepath` (as they behave on Windows, where this tool runs) are
modelled as Lean functions on strings; the effectful orchestration
(`execAppUpdate`, `extractFiles`, `deletePrevious`, `installVcr`) is
modelled as a pure function from an explicit oracle of environment
outcomes (`World`) to a result together with a trace of the observable
actions the code performs, in order.
-/

/-! ## Path helpers (Go `path/filepath`, Windows build)

On Windows `os.IsPathSeparator` accepts both `/` and `\`, `filepath.Separator`
is `\`, and `filepath.Clean` emits `\`.  Volume-name handling is omitted:
every path these programs pass to the helpers is a relative archive path or a
joined pattern without a drive prefix. -/

/-- Go `os.IsPathSeparator` on Windows: both slash and backslash separate. -/
def isSepChar (c : Char) : Bool :=
  c == '/' || c == '\\'

/-- Go `filepath.ToSlash` on Windows: replace each `\` with `/`. -/
def toSlash (s : String) : String :=
  String.mk (s.data.map (fun c => if c == '\\' then '/' else c))

/-- Split a character list into components at path separators. -/
def splitCompsAux : List Char → List Char → List (List Char)
  | [], acc => [acc.reverse]
  | c :: rest, acc =>
    if isSepChar c then acc.reverse :: splitCompsAux rest []
    else splitCompsAux rest (c :: acc)

/-- The non-empty separator-delimited components of a path. -/
def pathComps (s : String) : List String :=
  ((splitCompsAux s.data []).map String.mk).filter (fun c => c ≠ "")

/-- One step of `filepath.Clean`'s lexical processing: push a component onto
the stack of already-cleaned components (held in reverse). -/
def cleanStep (rooted : Bool) (acc : List String) (c : String) : List String :=
  if c = "." then acc
  else if c = ".." then
    match acc with
    | [] => if rooted then [] else [".."]
    | a :: rest => if a = ".." then c :: acc else rest
  else c :: acc

/-- Go `filepath.Clean` on Windows for volume-free paths: both separators are
recognized, `.` and `..` are resolved lexically, and the result uses `\`. -/
def goClean (s : String) : String :=
  if s = "" then "."
  else
    let rooted := match s.data with
      | [] => false
      | c :: _ => isSepChar c
    let out := ((pathComps s).foldl (cleanStep rooted) []).reverse
    let body := String.intercalate "\\" out
    if rooted then "\\" ++ body
    else if body = "" then "." else body

/-- Go `filepath.Base` on Windows (volume-free): drop trailing separators,
then keep what follows the last separator. -/
def goBase (s : String) : String :=
  if s = "" then "."
  else
    let l := (s.data.reverse.dropWhile isSepChar).reverse
    let b := (l.reverse.takeWhile (fun c => ¬ isSepChar c)).reverse
    if l = [] then "\\"
    else String.mk b

/-- Go `filepath.Dir` on Windows (volume-free): everything up to and
including the final separator, then `Clean`; `Clean ""` is `"."`. -/
def goDir (s : String) : String :=
  let pre := (s.data.reverse.dropWhile (fun c => ¬ isSepChar c)).reverse
  goClean (String.mk pre)

/-- Go `filepath.Join` of two elements: empty elements are dropped, the rest
are joined with the separator and `Clean`ed; all-empty input gives `""`. -/
def goJoin (a b : String) : String :=
  if a = "" then (if b = "" then "" else goClean b)
  else if b = "" then goClean a
  else goClean (a ++ "\\" ++ b)

/-- ASCII case folding, standing in for the `strings.EqualFold` comparison
Go's Windows `filepath.Rel` applies to components (the paths in this program
are ASCII). -/
def foldChar (c : Char) : Char :=
  if 'A' ≤ c ∧ c ≤ 'Z' then Char.ofNat (c.toNat + 32) else c

/-- Case-insensitive (ASCII) string equality, Go `sameWord` on Windows. -/
def eqFold (a b : String) : Bool :=
  a.data.map foldChar == b.data.map foldChar

/-- Drop the longest common prefix (under `eqFold`) of two component lists. -/
def dropCommon : List String → List String → (List String × List String)
  | a :: as_, b :: bs =>
    if eqFold a b then dropCommon as_ bs else (a :: as_, b :: bs)
  | as_, bs => (as_, bs)

/-- Go `filepath.Rel` on Windows for volume-free paths: clean both, require
equal rootedness, drop the common component prefix, refuse a remaining `..`
in the base, and otherwise climb with `..` segments. `none` models the error
return. -/
def goRel (basepath targpath : String) : Option String :=
  let base := goClean basepath
  let targ := goClean targpath
  if eqFold base targ then some "."
  else
    let base1 := if base = "." then "" else base
    let baseRooted := match base1.data with
      | [] => false
      | c :: _ => isSepChar c
    let targRooted := match targ.data with
      | [] => false
      | c :: _ => isSepChar c
    if baseRooted ≠ targRooted then none
    else
      let p := dropCommon (pathComps base1) (pathComps targ)
      match p.1 with
      | [] => some (String.intercalate "\\" p.2)
      | b :: _ =>
        if b = ".." then none
        else
          some (String.intercalate "\\"
            (List.replicate p.1.length ".." ++ p.2))

/-- Go `filepath.Match` on Windows, fuelled for structural recursion: `*`
matches any run of non-`\` characters (`/` is not the separator on Windows,
so `*` crosses it), `?` one non-`\` character, anything else itself.  The
patterns this program builds contain no character classes or escapes, so the
`ErrBadPattern` branch cannot arise and is not modelled. -/
def goMatchAux : Nat → List Char → List Char → Bool
  | 0, _, _ => false
  | _ + 1, [], [] => true
  | fuel + 1, '*' :: ps, name =>
    goMatchAux fuel ps name ||
      (match name with
       | [] => false
       | c :: rest => c ≠ '\\' && goMatchAux fuel ('*' :: ps) rest)
  | fuel + 1, '?' :: ps, c :: rest => c ≠ '\\' && goMatchAux fuel ps rest
  | fuel + 1, p :: ps, c :: rest => p == c && goMatchAux fuel ps rest
  | _ + 1, _, _ => false

/-- Go `filepath.Match pattern name` on Windows (see `goMatchAux`). -/
def goMatch (pattern name : String) : Bool :=
  goMatchAux (pattern.length + name.length + 1) pattern.data name.data

/-- Whether the character list `sub` occurs at the head of `l`. -/
def matchesAt : List Char → List Char → Bool
  | [], _ => true
  | _ :: _, [] => false
  | a :: as_, b :: bs => a == b && matchesAt as_ bs

/-- Go `strings.Contains s sub`. -/
def containsSubAux (sub : List Char) : List Char → Bool
  | [] => matchesAt sub []
  | c :: rest => matchesAt sub (c :: rest) || containsSubAux sub rest

/-- Go `strings.Contains`. -/
def containsSub (s sub : String) : Bool :=
  containsSubAux sub.data s.data

/-! ## Manifest selectors (`fullUpdateGen`, `updaterUpdateGen`,
`exeUpdateGen` from `app-update.go`; `partialUpdateGen` from the legacy
revision that still had a partial mode) -/

/-- `fullUpdateGen` (app-update.go): admit every path unchanged except the
two application-executable names and the updater binary. -/
def fullUpdateGen (path : String) : String :=
  let slashPath := toSlash path
  if slashPath = "Dolphin.exe" ∨ slashPath = "Slippi Dolphin.exe" then ""
  else if slashPath = "dolphin-slippi-tools.exe" then ""
  else path

/-- `updaterUpdateGen` (app-update.go): admit exactly the updater binary
(raw comparison, no `ToSlash` in the source). -/
def updaterUpdateGen (path : String) : String :=
  if path = "dolphin-slippi-tools.exe" then path else ""

/-- `exeUpdateGen` (app-update.go): admit exactly the two
application-executable names. -/
def exeUpdateGen (path : String) : String :=
  let slashPath := toSlash path
  if slashPath = "Dolphin.exe" ∨ slashPath = "Slippi Dolphin.exe" then path
  else ""

/-- `partialUpdateGen` (legacy revision): the fixed allow-list — the
VCRuntime help text file, the `Sys/GameFiles/GALE01/*` glob, and four named
`.ini` files. -/
def partialUpdateGen (path : String) : String :=
  let slashPath := toSlash path
  if slashPath = "FIX-VCRUNTIME140-ERROR.txt" then path
  else if goMatch "Sys/GameFiles/GALE01/*" slashPath then path
  else if slashPath = "Sys/GameSettings/GALE01r2.ini" ∨
      slashPath = "Sys/GameSettings/GALJ01r2.ini" then path
  else if slashPath = "User/GameSettings/GALE01.ini" ∨
      slashPath = "User/GameSettings/GALJ01r2.ini" then path
  else ""

/-- The selector variants `extractFiles` is called with, as a tag. -/
inductive GenKind where
  | full
  | updater
  | exe
  deriving DecidableEq, Repr

/-- Dispatch a `GenKind` tag to the selector function it names. -/
def runGen : GenKind → String → String
  | GenKind.full, p => fullUpdateGen p
  | GenKind.updater, p => updaterUpdateGen p
  | GenKind.exe, p => exeUpdateGen p

/-! ## Observable actions

The effectful code is modelled as a pure function producing, besides its
result, the ordered list of observable actions it performs.  File paths in
events are recorded relative to the installation directory (`exPath`), which
the code derives once and never varies. -/

/-- One observable action of the updater. -/
inductive Event where
  /-- `waitForDolphinClose` ran (blocking until no Dolphin process). -/
  | waitClose
  /-- `getLatestVersion` queried the release service with these channel types. -/
  | fetchVersion (types : List String)
  /-- `downloadFile` was invoked for this URL. -/
  | download (url : String)
  /-- The self-update path renamed `dolphin-slippi-tools.exe` to
  `old-dolphin-slippi-tools.exe`. -/
  | renameUpdater
  /-- The self-update path spawned the freshly extracted updater. -/
  | spawnChild (exe : String) (args : List String)
  /-- The install path removed any leftover `old-dolphin-slippi-tools.exe`. -/
  | removeOldUpdater
  /-- `applyMeleeOnlyChanges` cleaned `Sys/GameSettings`. -/
  | meleeCleanup
  /-- `deletePrevious` invoked `os.RemoveAll` on this install-relative path. -/
  | deletePrev (path : String)
  /-- `extractFiles` was entered with the given selector. -/
  | beginPass (g : GenKind)
  /-- An extraction pass created a directory (archive-relative target path). -/
  | mkdir (g : GenKind) (rel : String)
  /-- An extraction pass wrote a file (archive-relative target path). -/
  | write (g : GenKind) (rel : String)
  /-- `installVcr` compared these version strings (current, installer). -/
  | vcrCheck (current installer : String)
  /-- `installVcr` ran the redistributable installer; it exited with this status. -/
  | vcrRun (exit : Nat)
  /-- The install path launched Dolphin with the given ISO. -/
  | launchDolphin (exe iso : String)
  deriving DecidableEq, Repr

/-! ## Archive extraction (`extractFiles`) -/

/-- One archive entry, with the oracle of how its write behaves:
`contentOpenOk` is whether `file.Open()` succeeds, and `failAttempts` how
many initial open-or-copy attempts of the retry loop fail before one
succeeds. -/
structure ZipEntry where
  name : String
  isDir : Bool := false
  contentOpenOk : Bool := true
  failAttempts : Nat := 0
  deriving DecidableEq, Repr

/-- The per-file retry loop of `extractFiles`: while fewer than 20 seconds
have elapsed, attempt the open-and-copy; a failing attempt sleeps one second
(consuming one unit of `budget`); a successful attempt stops the loop.
Returns whether the file was written within the window. -/
def retryGo (failAttempts i budget : Nat) : Bool :=
  match budget with
  | 0 => false
  | b + 1 => if i < failAttempts then retryGo failAttempts (i + 1) b else true

/-- Whether the 20-second retry window of `extractFiles` writes the file. -/
def retryWrite (failAttempts : Nat) : Bool :=
  retryGo failAttempts 0 20

/-- The root-finding loop of `extractFiles` (app-update.go): the directory of
the first entry whose base name is `Dolphin.exe` or `Slippi Dolphin.exe`,
or `""` when there is none. -/
def findDolphinPath (entries : List ZipEntry) : String :=
  match entries.find? (fun f =>
      goBase f.name == "Dolphin.exe" || goBase f.name == "Slippi Dolphin.exe") with
  | some f => goDir f.name
  | none => ""

/-- The per-entry loop of `extractFiles`: filter by the root pattern,
relativize, apply the selector, then create the directory or run the retry
loop.  `file.Open()` failing aborts the whole extraction (`return err`); a
retry window elapsing does NOT abort — the `err` the code checks after the
loop is the (nil) one from `file.Open()`, Go's `:=` having scoped the loop's
own `err` to the loop body — so the entry is silently skipped. -/
def runPass (g : GenKind) (dolphinPath pattern : String) :
    List ZipEntry → Bool × List Event
  | [] => (true, [])
  | f :: rest =>
    if ¬ goMatch pattern f.name then runPass g dolphinPath pattern rest
    else
      match goRel dolphinPath f.name with
      | none => runPass g dolphinPath pattern rest
      | some relPath =>
        if runGen g relPath = "" then runPass g dolphinPath pattern rest
        else if f.isDir then
          ((runPass g dolphinPath pattern rest).1,
            Event.mkdir g (runGen g relPath) :: (runPass g dolphinPath pattern rest).2)
        else if ¬ f.contentOpenOk then (false, [])
        else if retryWrite f.failAttempts then
          ((runPass g dolphinPath pattern rest).1,
            Event.write g (runGen g relPath) :: (runPass g dolphinPath pattern rest).2)
        else runPass g dolphinPath pattern rest

/-- `extractFiles` (app-update.go): open the archive (`zipOk` is the
`zip.OpenReader` oracle), locate the Dolphin root, and extract the entries
the selector admits.  Returns whether it returned without error, and its
events (the `beginPass` marker records the call itself). -/
def extractFiles (zipOk : Bool) (entries : List ZipEntry) (g : GenKind) :
    Bool × List Event :=
  if ¬ zipOk then (false, [Event.beginPass g])
  else
    let dolphinPath := findDolphinPath entries
    let pattern := toSlash (goJoin dolphinPath "*")
    let r := runPass g dolphinPath pattern entries
    (r.1, Event.beginPass g :: r.2)

/-! ## Release metadata service (`getLatestVersion`) -/

/-- A release descriptor row of the metadata service.  `releasedAt` is the
service's timestamp column, modelled as a number (the JSON carries it as a
string; only its ordering matters here). -/
structure dolphinVersion where
  url : String
  version : String
  releasedAt : Nat
  type : String
  deriving DecidableEq, Repr

/-- The channel-type list `getLatestVersion` builds: `["ishii"]`, extended
with `"ishii-beta"` when updating from a beta install. -/
def getLatestTypes (isBeta : Bool) : List String :=
  let types := ["ishii"]
  if isBeta then types ++ ["ishii-beta"] else types

/-- One fold step of the query: keep the later-released row (the first row
wins ties, matching a stable descending sort's head). -/
def pickLater (acc : Option dolphinVersion) (v : dolphinVersion) :
    Option dolphinVersion :=
  match acc with
  | none => some v
  | some m => if m.releasedAt < v.releasedAt then some v else acc

/-- The GraphQL query `getLatestVersion` sends, executed over the service's
rows: filter to the requested types, order by `releasedAt` descending, limit
1 — i.e. the first row of maximal `releasedAt` among the matching ones. -/
def queryLatest (rows : List dolphinVersion) (types : List String) :
    Option dolphinVersion :=
  (rows.filter (fun r => types.contains r.type)).foldl pickLater none

/-- `getLatestVersion` (app-update.go): query with the channel types for the
update mode and take `resp.DolphinVersions[0]`; `none` models the
index-out-of-range panic on an empty response (which a failed network call
also produces, the error being only logged). -/
def getLatestVersion (rows : List dolphinVersion) (isBeta : Bool) :
    Option dolphinVersion :=
  queryLatest rows (getLatestTypes isBeta)

/-! ## VC++ runtime reconciliation (`installVcr`) -/

/-- Go `fmt.Sprintf "%d.%d.%d.%d"` over four naturals. -/
def formatVcr (a b c d : Nat) : String :=
  toString a ++ "." ++ toString b ++ "." ++ toString c ++ "." ++ toString d

/-- The registry state `getCurrentVcrVersion` reads: whether the runtime key
opens, and its four integer values when present. -/
structure VcrRegistry where
  keyOk : Bool
  major : Option Nat := none
  minor : Option Nat := none
  bld : Option Nat := none
  rbld : Option Nat := none
  deriving DecidableEq, Repr

/-- `getCurrentVcrVersion` (app-update.go): the installed runtime version as
`major.minor.bld.rbld`, or `""` when the key or any value is absent. -/
def getCurrentVcrVersion (r : VcrRegistry) : String :=
  if ¬ r.keyOk then ""
  else
    match r.major, r.minor, r.bld, r.rbld with
    | some a, some b, some c, some d => formatVcr a b c d
    | _, _, _, _ => ""

/-- `getInstallerVcrVersion` (app-update.go): split the installer's 64-bit
fixed file version into four 16-bit fields and format them. -/
def getInstallerVcrVersion (v : Nat) : String :=
  formatVcr ((v &&& 0xFFFF000000000000) >>> 48)
    ((v &&& 0x0000FFFF00000000) >>> 32)
    ((v &&& 0x00000000FFFF0000) >>> 16)
    ((v &&& 0x000000000000FFFF) >>> 0)

/-! ## The environment oracle and the orchestrator (`execAppUpdate`) -/

/-- Outcomes of every effect one `execAppUpdate` run performs, fixed up
front: an oracle for the OS, network, registry and archive. -/
structure World where
  /-- `os.Executable()` succeeds. -/
  exePathOk : Bool := true
  /-- `ioutil.TempDir` succeeds. -/
  tempDirOk : Bool := true
  /-- The release rows held by the metadata service. -/
  versions : List dolphinVersion := []
  /-- `downloadFile` of the release archive succeeds. -/
  downloadOk : Bool := true
  /-- `zip.OpenReader` on the downloaded archive succeeds. -/
  zipOk : Bool := true
  /-- The entries of the downloaded archive, with their write oracles. -/
  entries : List ZipEntry := []
  /-- `os.Rename` of the updater binary succeeds (self-update path). -/
  renameOk : Bool := true
  /-- `cmd.Start()` of the new updater succeeds (self-update path). -/
  spawnOk : Bool := true
  /-- Every `os.RemoveAll` inside `applyMeleeOnlyChanges` succeeds. -/
  meleeRemoveOk : Bool := true
  /-- `os.RemoveAll` of `Dolphin.exe` in `deletePrevious` succeeds. -/
  delDolphinOk : Bool := true
  /-- `os.RemoveAll` of `Slippi Dolphin.exe` in `deletePrevious` succeeds. -/
  delSlippiOk : Bool := true
  /-- `os.RemoveAll` of `Sys` in `deletePrevious` succeeds. -/
  delSysOk : Bool := true
  /-- `downloadFile` of the VC++ redistributable succeeds. -/
  vcrDownloadOk : Bool := true
  /-- Reading the installer's embedded version info succeeds
  (`getInstallerVcrVersion` panics otherwise). -/
  vcrInfoOk : Bool := true
  /-- The registry state `getCurrentVcrVersion` reads. -/
  vcrRegistry : VcrRegistry := { keyOk := false }
  /-- The installer's 64-bit embedded fixed file version. -/
  vcrInstaller : Nat := 0
  /-- The exit status of the redistributable installer subprocess. -/
  vcrExit : Nat := 0
  deriving Repr

/-- A step outcome: `log.Panic`/error propagation as `Except` (any error is
turned into the one generic message at the top level), plus the step's
events. -/
abbrev StepResult := Except String Unit × List Event

/-- Sequencing of steps: on error the run stops with the events so far; on
success the next step's events are appended. -/
def andThen (a : StepResult) (k : Unit → StepResult) : StepResult :=
  match a with
  | (Except.error e, t) => (Except.error e, t)
  | (Except.ok _, t) =>
    let r := k ()
    (r.1, t ++ r.2)

/-- `deletePrevious` (app-update.go): remove `Dolphin.exe`, then
`Slippi Dolphin.exe`, then the `Sys` directory, stopping at the first
failing removal. -/
def deletePrevious (w : World) : StepResult :=
  if ¬ w.delDolphinOk then
    (Except.error "delete Dolphin.exe", [Event.deletePrev "Dolphin.exe"])
  else if ¬ w.delSlippiOk then
    (Except.error "delete Slippi Dolphin.exe",
      [Event.deletePrev "Dolphin.exe", Event.deletePrev "Slippi Dolphin.exe"])
  else if ¬ w.delSysOk then
    (Except.error "delete Sys",
      [Event.deletePrev "Dolphin.exe", Event.deletePrev "Slippi Dolphin.exe",
        Event.deletePrev "Sys"])
  else
    (Except.ok (),
      [Event.deletePrev "Dolphin.exe", Event.deletePrev "Slippi Dolphin.exe",
        Event.deletePrev "Sys"])

/-- `applyMeleeOnlyChanges` (app-update.go): a no-op unless `prevVersion` is
empty; otherwise remove everything under `Sys/GameSettings`, panicking if a
removal fails (a `ReadDir` error only empties the loop). -/
def applyMeleeOnlyChanges (prevVersion : String) (w : World) : StepResult :=
  if prevVersion ≠ "" then (Except.ok (), [])
  else if w.meleeRemoveOk then (Except.ok (), [Event.meleeCleanup])
  else (Except.error "melee cleanup", [Event.meleeCleanup])

/-- An extraction pass as a step: `extractFiles` with the given selector;
a `false` outcome is the error the orchestrator panics on. -/
def extractStep (g : GenKind) (w : World) : StepResult :=
  let r := extractFiles w.zipOk w.entries g
  (if r.1 then Except.ok () else Except.error "extractFiles", r.2)

/-- The fixed URL `installVcr` downloads the redistributable from. -/
def vcrUrl : String :=
  "https://aka.ms/vs/16/release/vc_redist.x64.exe"

/-- `installVcr` (app-update.go): download the redistributable, compare the
installed and bundled versions, and when they differ run the installer once,
treating exit statuses 1638 and 3010 as benign and any other non-zero status
as fatal. -/
def installVcr (w : World) : StepResult :=
  if ¬ w.vcrDownloadOk then
    (Except.error "vcr download", [Event.download vcrUrl])
  else if ¬ w.vcrInfoOk then
    (Except.error "vcr version info", [Event.download vcrUrl])
  else if getCurrentVcrVersion w.vcrRegistry = getInstallerVcrVersion w.vcrInstaller then
    (Except.ok (),
      [Event.download vcrUrl,
        Event.vcrCheck (getCurrentVcrVersion w.vcrRegistry)
          (getInstallerVcrVersion w.vcrInstaller)])
  else if w.vcrExit = 0 ∨ w.vcrExit = 1638 ∨ w.vcrExit = 3010 then
    (Except.ok (),
      [Event.download vcrUrl,
        Event.vcrCheck (getCurrentVcrVersion w.vcrRegistry)
          (getInstallerVcrVersion w.vcrInstaller),
        Event.vcrRun w.vcrExit])
  else
    (Except.error "vcr install failed",
      [Event.download vcrUrl,
        Event.vcrCheck (getCurrentVcrVersion w.vcrRegistry)
          (getInstallerVcrVersion w.vcrInstaller),
        Event.vcrRun w.vcrExit])

/-- Go `fmt.Sprintf "%t"`. -/
def goBool (b : Bool) : String :=
  if b then "true" else "false"

/-- The self-update branch of `execAppUpdate` (the `!isFull &&
!skipUpdaterUpdate` case): rename the running updater out of the way,
extract only the new updater binary, and spawn it with the carried-forward
arguments, without waiting for it. -/
def selfUpdateTail (shouldLaunch : Bool) (isoPath prevVersion : String)
    (w : World) : StepResult :=
  andThen
    (if w.renameOk then (Except.ok (), [Event.renameUpdater])
     else (Except.error "rename slippi tools", [Event.renameUpdater]))
    (fun _ => andThen (extractStep GenKind.updater w)
      (fun _ =>
        if w.spawnOk then
          (Except.ok (),
            [Event.spawnChild "dolphin-slippi-tools.exe"
              ["app-update", "-skip-updater", "-launch=" ++ goBool shouldLaunch,
                "-iso", isoPath, "-version", prevVersion]])
        else
          (Except.error "start new updater",
            [Event.spawnChild "dolphin-slippi-tools.exe"
              ["app-update", "-skip-updater", "-launch=" ++ goBool shouldLaunch,
                "-iso", isoPath, "-version", prevVersion]])))

/-- The install branch of `execAppUpdate` (the `else` case): clear the
leftover old updater, run the one-time melee-only migration, delete the
previous install, extract data (full selector) and then the executables,
reconcile the VC++ runtime, and optionally launch Dolphin (whose `Start`
error the code checks against a stale nil `err`, so launching never fails
the run). -/
def installTail (shouldLaunch : Bool) (isoPath prevVersion : String)
    (w : World) : StepResult :=
  let r :=
    andThen (applyMeleeOnlyChanges prevVersion w) (fun _ =>
      andThen (deletePrevious w) (fun _ =>
        andThen (extractStep GenKind.full w) (fun _ =>
          andThen (extractStep GenKind.exe w) (fun _ =>
            andThen (installVcr w) (fun _ =>
              if shouldLaunch then
                (Except.ok (), [Event.launchDolphin "Slippi Dolphin.exe" isoPath])
              else (Except.ok (), []))))))
  (r.1, Event.removeOldUpdater :: r.2)

/-- The body of `execAppUpdate` before the `recover` boundary: resolve the
executable path, wait for Dolphin when doing a full update or the
post-self-update hop, query the release service, download the archive, and
branch into the self-update or install tail.  Errors carry the specific
panic site. -/
def execAppUpdateBody (isFull skipUpdaterUpdate shouldLaunch : Bool)
    (isoPath prevVersion : String) (w : World) : StepResult :=
  if ¬ w.exePathOk then (Except.error "os.Executable", [])
  else
    let waitT : List Event :=
      if isFull || skipUpdaterUpdate then [Event.waitClose] else []
    let isBeta := containsSub prevVersion "-beta"
    match getLatestVersion w.versions isBeta with
    | none =>
      (Except.error "dolphinVersions index out of range",
        waitT ++ [Event.fetchVersion (getLatestTypes isBeta)])
    | some latest =>
      if ¬ w.tempDirOk then
        (Except.error "TempDir", waitT ++ [Event.fetchVersion (getLatestTypes isBeta)])
      else
        let preT := waitT ++
          [Event.fetchVersion (getLatestTypes isBeta), Event.download latest.url]
        if ¬ w.downloadOk then (Except.error "download dolphin.zip", preT)
        else if !isFull && !skipUpdaterUpdate then
          let r := selfUpdateTail shouldLaunch isoPath prevVersion w
          (r.1, preT ++ r.2)
        else
          let r := installTail shouldLaunch isoPath prevVersion w
          (r.1, preT ++ r.2)

/-- `execAppUpdate` (app-update.go): the body wrapped in the deferred
`recover` that converts every internal panic into the one generic error
value returned to the caller. -/
def execAppUpdate (isFull skipUpdaterUpdate shouldLaunch : Bool)
    (isoPath prevVersion : String) (w : World) : StepResult :=
  let r := execAppUpdateBody isFull skipUpdaterUpdate shouldLaunch isoPath
    prevVersion w
  (r.1.mapError (fun _ => "Error encountered updating app"), r.2)

/-! ## Trace observations used by the stated properties -/

/-- The file-system outputs of a trace: the `(selector, target path)` pairs
of its write and mkdir events, in order. -/
def writeEvents (t : List Event) : List (GenKind × String) :=
  t.filterMap (fun e =>
    match e with
    | Event.write g r => some (g, r)
    | Event.mkdir g r => some (g, r)
    | _ => none)

/-- Whether a target path names the application executable. -/
def isAppExeName (r : String) : Bool :=
  toSlash r == "Dolphin.exe" || toSlash r == "Slippi Dolphin.exe"

/-- Whether a list of pass tags is some data-pass (full) writes followed by
some executable-pass writes: nothing tagged `exe` is ever followed by
anything tagged otherwise. -/
def tagsOk (l : List GenKind) : Bool :=
  (l.dropWhile (fun g => g == GenKind.full)).all (fun g => g == GenKind.exe)

/-- The C1 trace property: the file-system outputs are data-pass outputs
followed by executable-pass outputs, and an output is the application
executable exactly when the executable-only pass produced it. -/
def c1TraceOk (t : List Event) : Bool :=
  let ws := writeEvents t
  tagsOk (ws.map Prod.fst) &&
    ws.all (fun p => isAppExeName p.2 == (p.1 == GenKind.exe))

/-- Whether an event writes or creates a file-system entry. -/
def isWriteLike : Event → Bool
  | Event.write _ _ => true
  | Event.mkdir _ _ => true
  | _ => false

/-- Whether an event is the `deletePrevious` removal of the `Sys` tree. -/
def isDeleteSys : Event → Bool
  | Event.deletePrev r => r == "Sys"
  | _ => false

/-- No file-system output happens before `deletePrevious` has removed the
`Sys` tree (scanning the trace up to the first such removal). -/
def noWriteBeforeSys : List Event → Bool
  | [] => true
  | e :: rest =>
    if isDeleteSys e then true
    else !isWriteLike e && noWriteBeforeSys rest

/-- Whether an event touches the updater's own binary
`dolphin-slippi-tools.exe` (rename, write, mkdir or delete of it). -/
def touchesUpdaterBinary : Event → Bool
  | Event.renameUpdater => true
  | Event.write _ r => toSlash r == "dolphin-slippi-tools.exe"
  | Event.mkdir _ r => toSlash r == "dolphin-slippi-tools.exe"
  | Event.deletePrev r => toSlash r == "dolphin-slippi-tools.exe"
  | _ => false

/-- Whether an event is the removal of the staged old updater. -/
def isRemoveOld : Event → Bool
  | Event.removeOldUpdater => true
  | _ => false

/-- Whether a step result reports success. -/
def resultOk : StepResult → Bool
  | (Except.ok _, _) => true
  | (Except.error _, _) => false

/-! ## Selector characterizations -/

theorem fullUpdateGen_eq (p : String) :
    fullUpdateGen p =
      if toSlash p = "Dolphin.exe" ∨ toSlash p = "Slippi Dolphin.exe" ∨
          toSlash p = "dolphin-slippi-tools.exe" then "" else p := by
  by_cases h1 : toSlash p = "Dolphin.exe" <;>
    by_cases h2 : toSlash p = "Slippi Dolphin.exe" <;>
      by_cases h3 : toSlash p = "dolphin-slippi-tools.exe" <;>
        simp [fullUpdateGen, h1, h2, h3]

theorem exeUpdateGen_eq (p : String) :
    exeUpdateGen p =
      if toSlash p = "Dolphin.exe" ∨ toSlash p = "Slippi Dolphin.exe"
      then p else "" := rfl

theorem updaterUpdateGen_eq (p : String) :
    updaterUpdateGen p = if p = "dolphin-slippi-tools.exe" then p else "" := rfl

/-- A non-excluded `fullUpdateGen` output is the input itself, and names
neither executable nor the updater binary. -/
theorem fullUpdateGen_admit {p : String} (h : fullUpdateGen p ≠ "") :
    fullUpdateGen p = p ∧ toSlash p ≠ "Dolphin.exe" ∧
      toSlash p ≠ "Slippi Dolphin.exe" ∧ toSlash p ≠ "dolphin-slippi-tools.exe" := by
  by_cases hc : toSlash p = "Dolphin.exe" ∨ toSlash p = "Slippi Dolphin.exe" ∨
      toSlash p = "dolphin-slippi-tools.exe"
  · rw [fullUpdateGen_eq, if_pos hc] at h
    exact absurd rfl h
  · rw [fullUpdateGen_eq, if_neg hc]
    push_neg at hc
    exact ⟨rfl, hc.1, hc.2.1, hc.2.2⟩

/-- A non-excluded `exeUpdateGen` output is the input, which names the
application executable. -/
theorem exeUpdateGen_admit {p : String} (h : exeUpdateGen p ≠ "") :
    exeUpdateGen p = p ∧
      (toSlash p = "Dolphin.exe" ∨ toSlash p = "Slippi Dolphin.exe") := by
  by_cases hc : toSlash p = "Dolphin.exe" ∨ toSlash p = "Slippi Dolphin.exe"
  · rw [exeUpdateGen_eq, if_pos hc]
    exact ⟨rfl, hc⟩
  · rw [exeUpdateGen_eq, if_neg hc] at h
    exact absurd rfl h

/-- A non-excluded `updaterUpdateGen` output is exactly the updater binary. -/
theorem updaterUpdateGen_admit {p : String} (h : updaterUpdateGen p ≠ "") :
    updaterUpdateGen p = p ∧ p = "dolphin-slippi-tools.exe" := by
  by_cases hc : p = "dolphin-slippi-tools.exe"
  · rw [updaterUpdateGen_eq, if_pos hc]
    exact ⟨rfl, hc⟩
  · rw [updaterUpdateGen_eq, if_neg hc] at h
    exact absurd rfl h

/-! ## Events of an extraction pass -/

/-- Every event a pass loop emits is a write or mkdir tagged with the pass's
own selector, whose target is an admitted output of that selector. -/
theorem runPass_mem {g : GenKind} {dp pat : String} :
    ∀ {l : List ZipEntry} {e : Event}, e ∈ (runPass g dp pat l).2 →
      ∃ rel, runGen g rel ≠ "" ∧
        (e = Event.write g (runGen g rel) ∨ e = Event.mkdir g (runGen g rel)) := by
  intro l
  induction l with
  | nil => intro e he; simp [runPass] at he
  | cons f rest ih =>
    intro e he
    rw [runPass] at he
    split at he
    · exact ih he
    · split at he
      · exact ih he
      · rename_i relPath hrel
        split at he
        · exact ih he
        · rename_i hne
          split at he
          · rcases List.mem_cons.mp he with h | h
            · exact ⟨relPath, hne, Or.inr h⟩
            · exact ih h
          · split at he
            · simp at he
            · split at he
              · rcases List.mem_cons.mp he with h | h
                · exact ⟨relPath, hne, Or.inl h⟩
                · exact ih h
              · exact ih he

/-- Every event `extractFiles` emits is its `beginPass` marker or a
write/mkdir of an output its selector admits. -/
theorem extractFiles_mem {z : Bool} {l : List ZipEntry} {g : GenKind} {e : Event}
    (he : e ∈ (extractFiles z l g).2) :
    e = Event.beginPass g ∨
      ∃ rel, runGen g rel ≠ "" ∧
        (e = Event.write g (runGen g rel) ∨ e = Event.mkdir g (runGen g rel)) := by
  rw [extractFiles] at he
  split at he
  · simp at he
    exact Or.inl he
  · rcases List.mem_cons.mp he with h | h
    · exact Or.inl h
    · exact Or.inr (runPass_mem h)

/-! ## Write-event algebra -/

theorem writeEvents_nil : writeEvents [] = [] := rfl

theorem writeEvents_append (a b : List Event) :
    writeEvents (a ++ b) = writeEvents a ++ writeEvents b := by
  simp [writeEvents, List.filterMap_append]

/-- The write events of a full-selector pass: all tagged `full`, none naming
the application executable or the updater binary. -/
theorem writeEvents_full_pass {z : Bool} {l : List ZipEntry} :
    ∀ p ∈ writeEvents (extractFiles z l GenKind.full).2,
      p.1 = GenKind.full ∧ isAppExeName p.2 = false ∧
        toSlash p.2 ≠ "dolphin-slippi-tools.exe" := by
  intro p hp
  rcases List.mem_filterMap.mp hp with ⟨e, he, hsome⟩
  rcases extractFiles_mem he with hb | ⟨rel, hne, hw | hw⟩ <;> subst_vars
  · simp [writeEvents] at hsome
  · obtain rfl : (GenKind.full, runGen GenKind.full rel) = p := by
      simpa [writeEvents] using hsome
    have hadm := fullUpdateGen_admit (p := rel) hne
    refine ⟨rfl, ?_, ?_⟩
    · simp only [runGen, hadm.1, isAppExeName]
      simp [hadm.2.1, hadm.2.2.1]
    · simp only [runGen, hadm.1]
      exact hadm.2.2.2
  · obtain rfl : (GenKind.full, runGen GenKind.full rel) = p := by
      simpa [writeEvents] using hsome
    have hadm := fullUpdateGen_admit (p := rel) hne
    refine ⟨rfl, ?_, ?_⟩
    · simp only [runGen, hadm.1, isAppExeName]
      simp [hadm.2.1, hadm.2.2.1]
    · simp only [runGen, hadm.1]
      exact hadm.2.2.2

/-- The write events of an executable-selector pass: all tagged `exe`, all
naming the application executable. -/
theorem writeEvents_exe_pass {z : Bool} {l : List ZipEntry} :
    ∀ p ∈ writeEvents (extractFiles z l GenKind.exe).2,
      p.1 = GenKind.exe ∧ isAppExeName p.2 = true := by
  intro p hp
  rcases List.mem_filterMap.mp hp with ⟨e, he, hsome⟩
  rcases extractFiles_mem he with hb | ⟨rel, hne, hw | hw⟩ <;> subst_vars
  · simp [writeEvents] at hsome
  · obtain rfl : (GenKind.exe, runGen GenKind.exe rel) = p := by
      simpa [writeEvents] using hsome
    have hadm := exeUpdateGen_admit (p := rel) hne
    refine ⟨rfl, ?_⟩
    simp only [runGen, hadm.1, isAppExeName]
    rcases hadm.2 with h | h <;> simp [h]
  · obtain rfl : (GenKind.exe, runGen GenKind.exe rel) = p := by
      simpa [writeEvents] using hsome
    have hadm := exeUpdateGen_admit (p := rel) hne
    refine ⟨rfl, ?_⟩
    simp only [runGen, hadm.1, isAppExeName]
    rcases hadm.2 with h | h <;> simp [h]

/-- The write events of an updater-selector pass: all tagged `updater`, all
naming exactly the updater binary. -/
theorem writeEvents_updater_pass {z : Bool} {l : List ZipEntry} :
    ∀ p ∈ writeEvents (extractFiles z l GenKind.updater).2,
      p.1 = GenKind.updater ∧ p.2 = "dolphin-slippi-tools.exe" := by
  intro p hp
  rcases List.mem_filterMap.mp hp with ⟨e, he, hsome⟩
  rcases extractFiles_mem he with hb | ⟨rel, hne, hw | hw⟩ <;> subst_vars
  · simp [writeEvents] at hsome
  · obtain rfl : (GenKind.updater, runGen GenKind.updater rel) = p := by
      simpa [writeEvents] using hsome
    have hadm := updaterUpdateGen_admit (p := rel) hne
    exact ⟨rfl, by simp only [runGen, hadm.1]; exact hadm.2⟩
  · obtain rfl : (GenKind.updater, runGen GenKind.updater rel) = p := by
      simpa [writeEvents] using hsome
    have hadm := updaterUpdateGen_admit (p := rel) hne
    exact ⟨rfl, by simp only [runGen, hadm.1]; exact hadm.2⟩

/-! ## Tag-order algebra -/

theorem tagsOk_of_all_exe (l : List GenKind) (h : ∀ g ∈ l, g = GenKind.exe) :
    tagsOk l = true := by
  unfold tagsOk
  rw [List.all_eq_true]
  intro g hg
  have hmem : g ∈ l := (List.dropWhile_sublist _).mem hg
  simp [h g hmem]

theorem tagsOk_full_exe (w1 w2 : List (GenKind × String))
    (h1 : ∀ p ∈ w1, p.1 = GenKind.full) (h2 : ∀ p ∈ w2, p.1 = GenKind.exe) :
    tagsOk ((w1 ++ w2).map Prod.fst) = true := by
  induction w1 with
  | nil =>
    apply tagsOk_of_all_exe
    intro g hg
    rcases List.mem_map.mp hg with ⟨p, hp, rfl⟩
    exact h2 p (by simpa using hp)
  | cons a t ih =>
    have ha := h1 a (by simp)
    unfold tagsOk
    simp only [List.cons_append, List.map_cons, List.dropWhile_cons, ha]
    simp only [beq_self_eq_true, if_true]
    exact ih (fun p hp => h1 p (List.mem_cons_of_mem _ hp))

/-! ## Sequencing algebra -/

theorem andThen_fst (a : StepResult) (k : Unit → StepResult) :
    (andThen a k).1 =
      match a.1 with
      | Except.ok _ => (k ()).1
      | Except.error e => Except.error e := by
  rcases a with ⟨r, t⟩
  cases r <;> rfl

theorem andThen_snd (a : StepResult) (k : Unit → StepResult) :
    (andThen a k).2 = a.2 ++
      (match a.1 with
       | Except.ok _ => (k ()).2
       | Except.error _ => []) := by
  rcases a with ⟨r, t⟩
  cases r <;> simp [andThen]

/-! ## Non-extraction steps produce no file-system outputs -/

theorem writeEvents_melee (prev : String) (w : World) :
    writeEvents (applyMeleeOnlyChanges prev w).2 = [] := by
  unfold applyMeleeOnlyChanges
  split
  · rfl
  · split <;> rfl

theorem writeEvents_deletePrevious (w : World) :
    writeEvents (deletePrevious w).2 = [] := by
  unfold deletePrevious
  split
  · rfl
  · split
    · rfl
    · split <;> rfl

theorem writeEvents_installVcr (w : World) :
    writeEvents (installVcr w).2 = [] := by
  unfold installVcr
  repeat' split
  all_goals rfl

/-- The step-level trace of an extraction pass is the pass's trace. -/
theorem extractStep_snd (g : GenKind) (w : World) :
    (extractStep g w).2 = (extractFiles w.zipOk w.entries g).2 := rfl

/-- A successful extraction pass at the step level. -/
theorem extractStep_fst (g : GenKind) (w : World) :
    (extractStep g w).1 =
      if (extractFiles w.zipOk w.entries g).1 then Except.ok ()
      else Except.error "extractFiles" := rfl

theorem writeEvents_removeOld : writeEvents [Event.removeOldUpdater] = [] := rfl

theorem writeEvents_cons_other (t : List Event) :
    writeEvents (Event.removeOldUpdater :: t) = writeEvents t := rfl

/-- The file-system outputs of one install-path tail are the outputs of the
full-selector pass followed by those of the executable-selector pass. -/
theorem installTail_writeEvents (launch : Bool) (iso prev : String) (w : World) :
    ∃ w1 w2, writeEvents (installTail launch iso prev w).2 = w1 ++ w2 ∧
      (∀ p ∈ w1, p.1 = GenKind.full ∧ isAppExeName p.2 = false ∧
        toSlash p.2 ≠ "dolphin-slippi-tools.exe") ∧
      (∀ p ∈ w2, p.1 = GenKind.exe ∧ isAppExeName p.2 = true) := by
  have zA : writeEvents (applyMeleeOnlyChanges prev w).2 = [] :=
    writeEvents_melee prev w
  have zB : writeEvents (deletePrevious w).2 = [] := writeEvents_deletePrevious w
  have zE : writeEvents (installVcr w).2 = [] := writeEvents_installVcr w
  have hC : ∀ p ∈ writeEvents (extractStep GenKind.full w).2,
      p.1 = GenKind.full ∧ isAppExeName p.2 = false ∧
        toSlash p.2 ≠ "dolphin-slippi-tools.exe" := by
    rw [extractStep_snd]
    exact writeEvents_full_pass
  have hD : ∀ p ∈ writeEvents (extractStep GenKind.exe w).2,
      p.1 = GenKind.exe ∧ isAppExeName p.2 = true := by
    rw [extractStep_snd]
    exact writeEvents_exe_pass
  unfold installTail
  simp only [writeEvents_cons_other, andThen_snd, writeEvents_append, zA, zB,
    List.nil_append]
  cases (applyMeleeOnlyChanges prev w).1 with
  | error e => exact ⟨[], [], by simp [writeEvents], by simp, by simp⟩
  | ok u =>
    simp only [writeEvents_append, zB, List.nil_append]
    cases (deletePrevious w).1 with
    | error e => exact ⟨[], [], by simp [writeEvents], by simp, by simp⟩
    | ok u2 =>
      simp only [writeEvents_append]
      cases hrc : (extractStep GenKind.full w).1 with
      | error e =>
        refine ⟨writeEvents (extractStep GenKind.full w).2, [], by simp [writeEvents], hC, by simp⟩
      | ok u3 =>
        simp only [writeEvents_append]
        cases hrd : (extractStep GenKind.exe w).1 with
        | error e =>
          refine ⟨writeEvents (extractStep GenKind.full w).2,
            writeEvents (extractStep GenKind.exe w).2, by simp [writeEvents], hC, hD⟩
        | ok u4 =>
          simp only [writeEvents_append, zE, List.nil_append]
          cases (installVcr w).1 with
          | error e =>
            refine ⟨writeEvents (extractStep GenKind.full w).2,
              writeEvents (extractStep GenKind.exe w).2, by simp [writeEvents], hC, hD⟩
          | ok u5 =>
            refine ⟨writeEvents (extractStep GenKind.full w).2,
              writeEvents (extractStep GenKind.exe w).2, ?_, hC, hD⟩
            cases launch <;> simp [writeEvents]

theorem execAppUpdate_snd (isFull skipUpdaterUpdate shouldLaunch : Bool)
    (isoPath prevVersion : String) (w : World) :
    (execAppUpdate isFull skipUpdaterUpdate shouldLaunch isoPath prevVersion w).2 =
      (execAppUpdateBody isFull skipUpdaterUpdate shouldLaunch isoPath prevVersion w).2 :=
  rfl

theorem execAppUpdate_fst (isFull skipUpdaterUpdate shouldLaunch : Bool)
    (isoPath prevVersion : String) (w : World) :
    (execAppUpdate isFull skipUpdaterUpdate shouldLaunch isoPath prevVersion w).1 =
      (execAppUpdateBody isFull skipUpdaterUpdate shouldLaunch isoPath
        prevVersion w).1.mapError (fun _ => "Error encountered updating app") :=
  rfl

/-- On an install-path run, the file-system outputs of the whole trace are
the data-pass outputs followed by the executable-pass outputs. -/
theorem exec_install_writeEvents (isFull skipUpdaterUpdate shouldLaunch : Bool)
    (isoPath prevVersion : String) (w : World)
    (h : (isFull || skipUpdaterUpdate) = true) :
    ∃ w1 w2,
      writeEvents (execAppUpdate isFull skipUpdaterUpdate shouldLaunch isoPath
        prevVersion w).2 = w1 ++ w2 ∧
      (∀ p ∈ w1, p.1 = GenKind.full ∧ isAppExeName p.2 = false ∧
        toSlash p.2 ≠ "dolphin-slippi-tools.exe") ∧
      (∀ p ∈ w2, p.1 = GenKind.exe ∧ isAppExeName p.2 = true) := by
  have hb : (!isFull && !skipUpdaterUpdate) = false := by
    cases isFull <;> cases skipUpdaterUpdate <;> simp_all
  rw [execAppUpdate_snd]
  unfold execAppUpdateBody
  simp only [h, if_true, hb, Bool.false_eq_true, if_false]
  split
  · exact ⟨[], [], rfl, by simp, by simp⟩
  · split
    · exact ⟨[], [], by simp [writeEvents], by simp, by simp⟩
    · split
      · exact ⟨[], [], by simp [writeEvents], by simp, by simp⟩
      · split
        · exact ⟨[], [], by simp [writeEvents], by simp, by simp⟩
        · obtain ⟨w1, w2, heq, h1, h2⟩ := installTail_writeEvents shouldLaunch
            isoPath prevVersion w
          refine ⟨w1, w2, ?_, h1, h2⟩
          rw [writeEvents_append, heq]
          simp [writeEvents]

/-- A trace whose file-system outputs decompose into executable-free
data-pass outputs followed by executable-only final-pass outputs satisfies
the C1 property. -/
theorem c1TraceOk_of_decomp {t : List Event}
    (hd : ∃ w1 w2, writeEvents t = w1 ++ w2 ∧
      (∀ p ∈ w1, p.1 = GenKind.full ∧ isAppExeName p.2 = false ∧
        toSlash p.2 ≠ "dolphin-slippi-tools.exe") ∧
      (∀ p ∈ w2, p.1 = GenKind.exe ∧ isAppExeName p.2 = true)) :
    c1TraceOk t = true := by
  obtain ⟨w1, w2, heq, h1, h2⟩ := hd
  unfold c1TraceOk
  rw [heq, Bool.and_eq_true]
  constructor
  · exact tagsOk_full_exe w1 w2 (fun p hp => (h1 p hp).1) (fun p hp => (h2 p hp).1)
  · rw [List.all_eq_true]
    intro p hp
    rcases List.mem_append.mp hp with hp1 | hp2
    · obtain ⟨hg, hn, _⟩ := h1 p hp1
      rw [hg, hn]
      rfl
    · obtain ⟨hg, hn⟩ := h2 p hp2
      rw [hg, hn]
      rfl

/-! ## A concrete environment for witnesses and counterexamples -/

/-- A release archive shaped like a real Slippi Dolphin bundle. -/
def demoEntries : List ZipEntry :=
  [{ name := "FM-v2.3.0/Dolphin.exe" },
    { name := "FM-v2.3.0/Slippi Dolphin.exe" },
    { name := "FM-v2.3.0/dolphin-slippi-tools.exe" },
    { name := "FM-v2.3.0/Sys", isDir := true },
    { name := "FM-v2.3.0/Sys/GameFiles/GALE01/PlCa.dat" },
    { name := "FM-v2.3.0/readme.txt" }]

/-- A fully cooperative environment: one stable release, the demo archive,
no failing effects, no VC++ runtime registered, installer version 14.29.0.0,
installer exiting 0. -/
def demoRelease : dolphinVersion :=
  { url := "https://example.test/dolphin.zip"
    version := "2.3.0"
    releasedAt := 10
    type := "ishii" }

def wDemo : World :=
  { versions := [demoRelease]
    entries := demoEntries
    vcrInstaller := 14 * 2 ^ 48 + 29 * 2 ^ 32 }

/-- C1: on every install-path run (`skipUpdaterUpdate` or `isFull` set), the
data pass's selector excludes both application-executable names and the
updater binary, only the executable-only selector admits the executable
names, and in the run's trace every file-system output naming the
application executable comes from the executable pass, all of whose outputs
follow every data-pass output. -/
theorem c1_exe_written_only_by_final_pass
    (isFull skipUpdaterUpdate shouldLaunch : Bool) (isoPath prevVersion : String)
    (w : World) (h : (isFull || skipUpdaterUpdate) = true) :
    fullUpdateGen "Dolphin.exe" = "" ∧
    fullUpdateGen "Slippi Dolphin.exe" = "" ∧
    fullUpdateGen "dolphin-slippi-tools.exe" = "" ∧
    updaterUpdateGen "Dolphin.exe" = "" ∧
    updaterUpdateGen "Slippi Dolphin.exe" = "" ∧
    exeUpdateGen "Dolphin.exe" = "Dolphin.exe" ∧
    exeUpdateGen "Slippi Dolphin.exe" = "Slippi Dolphin.exe" ∧
    c1TraceOk (execAppUpdate isFull skipUpdaterUpdate shouldLaunch isoPath
      prevVersion w).2 = true := by
  refine ⟨by decide, by decide, by decide, by decide, by decide, by decide,
    by decide, ?_⟩
  exact c1TraceOk_of_decomp (exec_install_writeEvents isFull skipUpdaterUpdate
    shouldLaunch isoPath prevVersion w h)

/-- Witness for C1 at a concrete install-path run. -/
theorem c1_witness :
    (true || false) = true ∧
    (fullUpdateGen "Dolphin.exe" = "" ∧
      fullUpdateGen "Slippi Dolphin.exe" = "" ∧
      fullUpdateGen "dolphin-slippi-tools.exe" = "" ∧
      updaterUpdateGen "Dolphin.exe" = "" ∧
      updaterUpdateGen "Slippi Dolphin.exe" = "" ∧
      exeUpdateGen "Dolphin.exe" = "Dolphin.exe" ∧
      exeUpdateGen "Slippi Dolphin.exe" = "Slippi Dolphin.exe" ∧
      c1TraceOk (execAppUpdate true false false "game.iso" "2.3.0" wDemo).2 = true) :=
  ⟨rfl, c1_exe_written_only_by_final_pass true false false "game.iso" "2.3.0"
    wDemo rfl⟩

/-! ## Structural membership facts for the install tail -/

theorem melee_mem {prev : String} {w : World} {e : Event}
    (he : e ∈ (applyMeleeOnlyChanges prev w).2) : e = Event.meleeCleanup := by
  unfold applyMeleeOnlyChanges at he
  split at he
  · simp at he
  · split at he <;> simpa using he

theorem deletePrevious_mem {w : World} {e : Event}
    (he : e ∈ (deletePrevious w).2) :
    e = Event.deletePrev "Dolphin.exe" ∨
      e = Event.deletePrev "Slippi Dolphin.exe" ∨
      e = Event.deletePrev "Sys" := by
  unfold deletePrevious at he
  split at he
  · simp at he
    exact Or.inl he
  · split at he
    · simp at he
      rcases he with rfl | rfl
      · exact Or.inl rfl
      · exact Or.inr (Or.inl rfl)
    · split at he <;>
        · simp at he
          rcases he with rfl | rfl | rfl
          · exact Or.inl rfl
          · exact Or.inr (Or.inl rfl)
          · exact Or.inr (Or.inr rfl)

theorem installVcr_mem {w : World} {e : Event} (he : e ∈ (installVcr w).2) :
    e = Event.download vcrUrl ∨ (∃ c i, e = Event.vcrCheck c i) ∨
      ∃ x, e = Event.vcrRun x := by
  unfold installVcr at he
  repeat' split at he
  all_goals simp at he
  all_goals first
    | exact Or.inl he
    | (rcases he with rfl | rfl
       · exact Or.inl rfl
       · exact Or.inr (Or.inl ⟨_, _, rfl⟩))
    | (rcases he with rfl | rfl | rfl
       · exact Or.inl rfl
       · exact Or.inr (Or.inl ⟨_, _, rfl⟩)
       · exact Or.inr (Or.inr ⟨_, rfl⟩))

/-- Every event of the install tail is one of its bookkeeping actions, an
event of the full pass, an event of the executable pass, a VC++ installer
action, or the final launch. -/
theorem installTail_mem {launch : Bool} {iso prev : String} {w : World}
    {e : Event} (he : e ∈ (installTail launch iso prev w).2) :
    e = Event.removeOldUpdater ∨ e = Event.meleeCleanup ∨
      e = Event.deletePrev "Dolphin.exe" ∨
      e = Event.deletePrev "Slippi Dolphin.exe" ∨
      e = Event.deletePrev "Sys" ∨
      e ∈ (extractFiles w.zipOk w.entries GenKind.full).2 ∨
      e ∈ (extractFiles w.zipOk w.entries GenKind.exe).2 ∨
      e = Event.download vcrUrl ∨ (∃ c i, e = Event.vcrCheck c i) ∨
      (∃ x, e = Event.vcrRun x) ∨
      e = Event.launchDolphin "Slippi Dolphin.exe" iso := by
  unfold installTail at he
  simp only [List.mem_cons] at he
  rcases he with h0 | he
  · exact Or.inl h0
  · rw [andThen_snd] at he
    rcases List.mem_append.mp he with h1 | he
    · exact Or.inr (Or.inl (melee_mem h1))
    · revert he
      cases (applyMeleeOnlyChanges prev w).1 with
      | error e2 => intro he; simp at he
      | ok u =>
        intro he
        rw [andThen_snd] at he
        rcases List.mem_append.mp he with h2 | he
        · rcases deletePrevious_mem h2 with h | h | h
          · exact Or.inr (Or.inr (Or.inl h))
          · exact Or.inr (Or.inr (Or.inr (Or.inl h)))
          · exact Or.inr (Or.inr (Or.inr (Or.inr (Or.inl h))))
        · revert he
          cases (deletePrevious w).1 with
          | error e2 => intro he; simp at he
          | ok u2 =>
            intro he
            rw [andThen_snd] at he
            rcases List.mem_append.mp he with h3 | he
            · rw [extractStep_snd] at h3
              exact Or.inr (Or.inr (Or.inr (Or.inr (Or.inr (Or.inl h3)))))
            · revert he
              cases (extractStep GenKind.full w).1 with
              | error e2 => intro he; simp at he
              | ok u3 =>
                intro he
                rw [andThen_snd] at he
                rcases List.mem_append.mp he with h4 | he
                · rw [extractStep_snd] at h4
                  exact Or.inr (Or.inr (Or.inr (Or.inr (Or.inr (Or.inr
                    (Or.inl h4))))))
                · revert he
                  cases (extractStep GenKind.exe w).1 with
                  | error e2 => intro he; simp at he
                  | ok u4 =>
                    intro he
                    rw [andThen_snd] at he
                    rcases List.mem_append.mp he with h5 | he
                    · rcases installVcr_mem h5 with h | h | h
                      · exact Or.inr (Or.inr (Or.inr (Or.inr (Or.inr (Or.inr
                          (Or.inr (Or.inl h)))))))
                      · exact Or.inr (Or.inr (Or.inr (Or.inr (Or.inr (Or.inr
                          (Or.inr (Or.inr (Or.inl h))))))))
                      · exact Or.inr (Or.inr (Or.inr (Or.inr (Or.inr (Or.inr
                          (Or.inr (Or.inr (Or.inr (Or.inl h)))))))))
                    · revert he
                      cases (installVcr w).1 with
                      | error e2 => intro he; simp at he
                      | ok u5 =>
                        intro he
                        cases launch with
                        | true =>
                          exact Or.inr (Or.inr (Or.inr (Or.inr (Or.inr (Or.inr
                            (Or.inr (Or.inr (Or.inr (Or.inr
                              (by simpa using he))))))))))
                        | false => simp at he

/-- On an install-path run, every trace event is the wait, the release
fetch, a download, or an install-tail event. -/
theorem exec_install_mem (isFull skipUpdaterUpdate shouldLaunch : Bool)
    (isoPath prevVersion : String) (w : World)
    (h : (isFull || skipUpdaterUpdate) = true) {e : Event}
    (he : e ∈ (execAppUpdate isFull skipUpdaterUpdate shouldLaunch isoPath
      prevVersion w).2) :
    e = Event.waitClose ∨ (∃ ts, e = Event.fetchVersion ts) ∨
      (∃ u, e = Event.download u) ∨
      e ∈ (installTail shouldLaunch isoPath prevVersion w).2 := by
  have hb : (!isFull && !skipUpdaterUpdate) = false := by
    cases isFull <;> cases skipUpdaterUpdate <;> simp_all
  rw [execAppUpdate_snd] at he
  unfold execAppUpdateBody at he
  simp only [h, hb, if_true, Bool.false_eq_true, if_false] at he
  split at he
  · simp at he
  · split at he
    · simp at he
      rcases he with rfl | rfl
      · exact Or.inl rfl
      · exact Or.inr (Or.inl ⟨_, rfl⟩)
    · split at he
      · simp at he
        rcases he with rfl | rfl
        · exact Or.inl rfl
        · exact Or.inr (Or.inl ⟨_, rfl⟩)
      · split at he
        · simp at he
          rcases he with rfl | rfl | rfl
          · exact Or.inl rfl
          · exact Or.inr (Or.inl ⟨_, rfl⟩)
          · exact Or.inr (Or.inr (Or.inl ⟨_, rfl⟩))
        · simp only [List.cons_append, List.nil_append, List.mem_cons] at he
          rcases he with rfl | rfl | rfl | he
          · exact Or.inl rfl
          · exact Or.inr (Or.inl ⟨_, rfl⟩)
          · exact Or.inr (Or.inr (Or.inl ⟨_, rfl⟩))
          · exact Or.inr (Or.inr (Or.inr he))

/-- On an install-path run the trace is empty (the executable path could not
be resolved) or begins with the wait for Dolphin to close. -/
theorem exec_install_head (isFull skipUpdaterUpdate shouldLaunch : Bool)
    (isoPath prevVersion : String) (w : World)
    (h : (isFull || skipUpdaterUpdate) = true) :
    (execAppUpdate isFull skipUpdaterUpdate shouldLaunch isoPath prevVersion
      w).2 = [] ∨
    ∃ t, (execAppUpdate isFull skipUpdaterUpdate shouldLaunch isoPath
      prevVersion w).2 = Event.waitClose :: t := by
  have hb : (!isFull && !skipUpdaterUpdate) = false := by
    cases isFull <;> cases skipUpdaterUpdate <;> simp_all
  rw [execAppUpdate_snd]
  unfold execAppUpdateBody
  simp only [h, hb, if_true, Bool.false_eq_true, if_false]
  split
  · exact Or.inl rfl
  · split
    · exact Or.inr ⟨_, rfl⟩
    · split
      · exact Or.inr ⟨_, rfl⟩
      · split
        · exact Or.inr ⟨_, rfl⟩
        · simp only [List.cons_append, List.nil_append]
          exact Or.inr ⟨_, rfl⟩

/-- On an install-path run the body either aborts before the install tail
(with one of three short traces) or runs the install tail after the wait,
fetch and download. -/
theorem exec_install_split (isFull skipUpdaterUpdate shouldLaunch : Bool)
    (isoPath prevVersion : String) (w : World)
    (h : (isFull || skipUpdaterUpdate) = true) :
    (∃ r, execAppUpdateBody isFull skipUpdaterUpdate shouldLaunch isoPath
      prevVersion w = (Except.error r, [])) ∨
    (∃ r ts, execAppUpdateBody isFull skipUpdaterUpdate shouldLaunch isoPath
      prevVersion w =
        (Except.error r, [Event.waitClose, Event.fetchVersion ts])) ∨
    (∃ r ts u, execAppUpdateBody isFull skipUpdaterUpdate shouldLaunch isoPath
      prevVersion w =
        (Except.error r,
          [Event.waitClose, Event.fetchVersion ts, Event.download u])) ∨
    (∃ ts u, execAppUpdateBody isFull skipUpdaterUpdate shouldLaunch isoPath
      prevVersion w =
        ((installTail shouldLaunch isoPath prevVersion w).1,
          Event.waitClose :: Event.fetchVersion ts :: Event.download u ::
            (installTail shouldLaunch isoPath prevVersion w).2)) := by
  have hb : (!isFull && !skipUpdaterUpdate) = false := by
    cases isFull <;> cases skipUpdaterUpdate <;> simp_all
  unfold execAppUpdateBody
  simp only [h, hb, if_true, Bool.false_eq_true, if_false]
  split
  · exact Or.inl ⟨_, rfl⟩
  · split
    · exact Or.inr (Or.inl ⟨_, _, rfl⟩)
    · split
      · exact Or.inr (Or.inl ⟨_, _, rfl⟩)
      · split
        · exact Or.inr (Or.inr (Or.inl ⟨_, _, _, rfl⟩))
        · simp only [List.cons_append, List.nil_append]
          exact Or.inr (Or.inr (Or.inr ⟨_, _, rfl⟩))

/-- No full-pass event touches the updater binary (the full selector
excludes it). -/
theorem pass_not_touch_full {z : Bool} {l : List ZipEntry} {e : Event}
    (he : e ∈ (extractFiles z l GenKind.full).2) :
    touchesUpdaterBinary e = false := by
  rcases extractFiles_mem he with rfl | ⟨rel, hne, rfl | rfl⟩
  · rfl
  · have hadm := fullUpdateGen_admit (p := rel) hne
    simp only [touchesUpdaterBinary, runGen, hadm.1]
    rw [beq_eq_false_iff_ne]
    exact hadm.2.2.2
  · have hadm := fullUpdateGen_admit (p := rel) hne
    simp only [touchesUpdaterBinary, runGen, hadm.1]
    rw [beq_eq_false_iff_ne]
    exact hadm.2.2.2

/-- No executable-pass event touches the updater binary (that selector
admits only the two executable names). -/
theorem pass_not_touch_exe {z : Bool} {l : List ZipEntry} {e : Event}
    (he : e ∈ (extractFiles z l GenKind.exe).2) :
    touchesUpdaterBinary e = false := by
  rcases extractFiles_mem he with rfl | ⟨rel, hne, rfl | rfl⟩
  · rfl
  · have hadm := exeUpdateGen_admit (p := rel) hne
    simp only [touchesUpdaterBinary, runGen, hadm.1]
    rcases hadm.2 with hs | hs <;> rw [hs] <;> decide
  · have hadm := exeUpdateGen_admit (p := rel) hne
    simp only [touchesUpdaterBinary, runGen, hadm.1]
    rcases hadm.2 with hs | hs <;> rw [hs] <;> decide

/-- No install-tail event touches the updater binary. -/
theorem installTail_not_touch {launch : Bool} {iso prev : String} {w : World}
    {e : Event} (he : e ∈ (installTail launch iso prev w).2) :
    touchesUpdaterBinary e = false := by
  rcases installTail_mem he with rfl | rfl | rfl | rfl | rfl | hf | hx | rfl |
    ⟨c, i, rfl⟩ | ⟨x, rfl⟩ | rfl
  · rfl
  · rfl
  · decide
  · decide
  · decide
  · exact pass_not_touch_full hf
  · exact pass_not_touch_exe hx
  · rfl
  · rfl
  · rfl
  · rfl

/-- C6: with `skipUpdaterUpdate` set, no action of the run touches the
updater's own binary; the staged old updater is removed only on traces that
began by waiting for Dolphin to close; and a successful run did remove the
staged old updater (the install path ran). -/
theorem c6_skip_updater_install_path
    (isFull skipUpdaterUpdate shouldLaunch : Bool)
    (isoPath prevVersion : String) (w : World) (h : skipUpdaterUpdate = true) :
    ((execAppUpdate isFull skipUpdaterUpdate shouldLaunch isoPath prevVersion
        w).2.all (fun e => !touchesUpdaterBinary e)) = true ∧
    (((execAppUpdate isFull skipUpdaterUpdate shouldLaunch isoPath prevVersion
        w).2.any isRemoveOld) = true →
      ∃ t, (execAppUpdate isFull skipUpdaterUpdate shouldLaunch isoPath
        prevVersion w).2 = Event.waitClose :: t) ∧
    ((execAppUpdate isFull skipUpdaterUpdate shouldLaunch isoPath prevVersion
        w).1 = Except.ok () →
      ((execAppUpdate isFull skipUpdaterUpdate shouldLaunch isoPath prevVersion
        w).2.any isRemoveOld) = true) := by
  have hi : (isFull || skipUpdaterUpdate) = true := by simp [h]
  refine ⟨?_, ?_, ?_⟩
  · rw [List.all_eq_true]
    intro e he
    rcases exec_install_mem isFull skipUpdaterUpdate shouldLaunch isoPath
      prevVersion w hi he with rfl | ⟨ts, rfl⟩ | ⟨u, rfl⟩ | hm
    · rfl
    · rfl
    · rfl
    · simp [installTail_not_touch hm]
  · intro hany
    rcases exec_install_head isFull skipUpdaterUpdate shouldLaunch isoPath
      prevVersion w hi with hnil | ⟨t, ht⟩
    · rw [hnil] at hany
      simp at hany
    · exact ⟨t, ht⟩
  · intro hok
    have hmem : Event.removeOldUpdater ∈
        (installTail shouldLaunch isoPath prevVersion w).2 := by
      unfold installTail
      simp
    rcases exec_install_split isFull skipUpdaterUpdate shouldLaunch isoPath
      prevVersion w hi with ⟨r, hsp⟩ | ⟨r, ts, hsp⟩ | ⟨r, ts, u, hsp⟩ |
      ⟨ts, u, hsp⟩
    · rw [execAppUpdate_fst, hsp] at hok
      simp [Except.mapError] at hok
    · rw [execAppUpdate_fst, hsp] at hok
      simp [Except.mapError] at hok
    · rw [execAppUpdate_fst, hsp] at hok
      simp [Except.mapError] at hok
    · rw [execAppUpdate_snd, hsp]
      apply List.any_eq_true.mpr
      exact ⟨Event.removeOldUpdater, by simp [hmem], rfl⟩

/-- Witness for C6 at a concrete run with `skipUpdaterUpdate` set. -/
theorem c6_witness :
    true = true ∧
    (((execAppUpdate false true false "game.iso" "2.3.0" wDemo).2.all
        (fun e => !touchesUpdaterBinary e)) = true ∧
      (((execAppUpdate false true false "game.iso" "2.3.0" wDemo).2.any
          isRemoveOld) = true →
        ∃ t, (execAppUpdate false true false "game.iso" "2.3.0" wDemo).2 =
          Event.waitClose :: t) ∧
      ((execAppUpdate false true false "game.iso" "2.3.0" wDemo).1 =
          Except.ok () →
        ((execAppUpdate false true false "game.iso" "2.3.0" wDemo).2.any
            isRemoveOld) = true)) :=
  ⟨rfl, c6_skip_updater_install_path false true false "game.iso" "2.3.0"
    wDemo rfl⟩

/-- C9: one run of `execAppUpdate` can only return success or the single
generic error value the `recover` boundary substitutes for every internal
panic — resolving the executable path, fetching an empty release list,
downloading, extracting and installing failures included. -/
theorem c9_single_recover_boundary (isFull skipUpdaterUpdate shouldLaunch : Bool)
    (isoPath prevVersion : String) (w : World) :
    (execAppUpdate isFull skipUpdaterUpdate shouldLaunch isoPath prevVersion
        w).1 = Except.ok () ∨
    (execAppUpdate isFull skipUpdaterUpdate shouldLaunch isoPath prevVersion
        w).1 = Except.error "Error encountered updating app" := by
  rw [execAppUpdate_fst]
  cases hb : (execAppUpdateBody isFull skipUpdaterUpdate shouldLaunch isoPath
      prevVersion w).1 with
  | ok u =>
    cases u
    exact Or.inl rfl
  | error e => exact Or.inr rfl

/-- Which pass tag an extraction event carries, for the install-path check. -/
def usesOnlyInstallSelectors : Event → Bool
  | Event.beginPass g => g == GenKind.full || g == GenKind.exe
  | Event.write g _ => g == GenKind.full || g == GenKind.exe
  | Event.mkdir g _ => g == GenKind.full || g == GenKind.exe
  | _ => true

/-- C4 counterexample: on the post-self-update hop (`isFull = false`) the
data pass runs the FULL selector, not a partial one — the trace records the
full pass and even writes `readme.txt`, a path the legacy partial selector
excludes. -/
theorem c4_counterexample :
    Event.beginPass GenKind.full ∈
      (execAppUpdate false true false "game.iso" "2.3.0" wDemo).2 ∧
    Event.write GenKind.full "readme.txt" ∈
      (execAppUpdate false true false "game.iso" "2.3.0" wDemo).2 ∧
    partialUpdateGen "readme.txt" = "" := by
  decide

/-- C4 amended: on the install path the data extraction pass always uses the
full selector, regardless of `isFull`; the only selectors any trace event
carries are the full one and the executable one. -/
theorem c4_data_pass_always_full_selector
    (isFull skipUpdaterUpdate shouldLaunch : Bool)
    (isoPath prevVersion : String) (w : World)
    (h : (isFull || skipUpdaterUpdate) = true) :
    ((execAppUpdate isFull skipUpdaterUpdate shouldLaunch isoPath prevVersion
        w).2.all usesOnlyInstallSelectors) = true := by
  rw [List.all_eq_true]
  intro e he
  rcases exec_install_mem isFull skipUpdaterUpdate shouldLaunch isoPath
    prevVersion w h he with rfl | ⟨ts, rfl⟩ | ⟨u, rfl⟩ | hm
  · rfl
  · rfl
  · rfl
  · rcases installTail_mem hm with rfl | rfl | rfl | rfl | rfl | hf | hx | rfl |
      ⟨c, i, rfl⟩ | ⟨x, rfl⟩ | rfl
    · rfl
    · rfl
    · rfl
    · rfl
    · rfl
    · rcases extractFiles_mem hf with rfl | ⟨rel, _, rfl | rfl⟩ <;> rfl
    · rcases extractFiles_mem hx with rfl | ⟨rel, _, rfl | rfl⟩ <;> rfl
    · rfl
    · rfl
    · rfl
    · rfl

/-- Witness for the amended C4 at a concrete partial-mode install run. -/
theorem c4_witness :
    (false || true) = true ∧
    ((execAppUpdate false true false "game.iso" "2.3.0" wDemo).2.all
      usesOnlyInstallSelectors) = true :=
  ⟨rfl, c4_data_pass_always_full_selector false true false "game.iso" "2.3.0"
    wDemo rfl⟩

/-- A failing removal makes `deletePrevious` return an error. -/
theorem deletePrevious_fail {w : World}
    (hfail : w.delDolphinOk = false ∨ w.delSlippiOk = false ∨
      w.delSysOk = false) :
    ∃ msg, (deletePrevious w).1 = Except.error msg := by
  unfold deletePrevious
  split
  · exact ⟨_, rfl⟩
  · split
    · exact ⟨_, rfl⟩
    · split
      · exact ⟨_, rfl⟩
      · rename_i hd1 hd2 hd3
        rcases hfail with hf | hf | hf <;> simp_all

/-- With a failing `deletePrevious` removal, the install tail errors out and
produces no file-system output at all. -/
theorem installTail_delFail {launch : Bool} {iso prev : String} {w : World}
    (hfail : w.delDolphinOk = false ∨ w.delSlippiOk = false ∨
      w.delSysOk = false) :
    (∃ msg, (installTail launch iso prev w).1 = Except.error msg) ∧
    ((installTail launch iso prev w).2.all (fun e => !isWriteLike e)) = true := by
  obtain ⟨msg, hd⟩ := deletePrevious_fail hfail
  constructor
  · unfold installTail
    simp only [andThen_fst]
    cases hm : (applyMeleeOnlyChanges prev w).1 with
    | error e => exact ⟨e, rfl⟩
    | ok u =>
      rw [hd]
      exact ⟨msg, rfl⟩
  · rw [List.all_eq_true]
    intro e he
    unfold installTail at he
    simp only [List.mem_cons] at he
    rcases he with rfl | he
    · rfl
    · rw [andThen_snd] at he
      rcases List.mem_append.mp he with h1 | he
      · rw [melee_mem h1]
        rfl
      · revert he
        cases (applyMeleeOnlyChanges prev w).1 with
        | error e2 => intro he; simp at he
        | ok u =>
          intro he
          rw [andThen_snd, hd] at he
          rcases List.mem_append.mp he with h2 | he
          · rcases deletePrevious_mem h2 with rfl | rfl | rfl <;> rfl
          · simp at he

/-- The install tail never produces a file-system output before
`deletePrevious` has removed the `Sys` tree. -/
theorem installTail_noWriteBeforeSys (launch : Bool) (iso prev : String)
    (w : World) :
    noWriteBeforeSys (installTail launch iso prev w).2 = true := by
  by_cases hp : prev = "" <;> by_cases hmel : w.meleeRemoveOk <;>
    by_cases h1 : w.delDolphinOk <;> by_cases h2 : w.delSlippiOk <;>
      by_cases h3 : w.delSysOk <;>
        simp_all [installTail, applyMeleeOnlyChanges, deletePrevious, andThen,
          noWriteBeforeSys, isDeleteSys, isWriteLike]

/-- If the install tail produced any file-system output, all three
`deletePrevious` removals happened (and are in its trace). -/
theorem installTail_writes_deletes {launch : Bool} {iso prev : String}
    {w : World}
    (hw : ((installTail launch iso prev w).2.any isWriteLike) = true) :
    Event.deletePrev "Dolphin.exe" ∈ (installTail launch iso prev w).2 ∧
    Event.deletePrev "Slippi Dolphin.exe" ∈ (installTail launch iso prev w).2 ∧
    Event.deletePrev "Sys" ∈ (installTail launch iso prev w).2 := by
  by_cases hp : prev = "" <;> by_cases hmel : w.meleeRemoveOk <;>
    by_cases h1 : w.delDolphinOk <;> by_cases h2 : w.delSlippiOk <;>
      by_cases h3 : w.delSysOk <;>
        simp_all [installTail, applyMeleeOnlyChanges, deletePrevious, andThen,
          isWriteLike]

/-- C10: on the install path, a failing `deletePrevious` removal aborts the
run with the generic error before any extraction output exists; no
extraction output ever precedes the removal of the `Sys` tree; and any run
that produced an extraction output had first removed `Dolphin.exe`,
`Slippi Dolphin.exe` and `Sys`. -/
theorem c10_delete_previous_before_extraction
    (isFull skipUpdaterUpdate shouldLaunch : Bool)
    (isoPath prevVersion : String) (w : World)
    (h : (isFull || skipUpdaterUpdate) = true) :
    ((w.delDolphinOk = false ∨ w.delSlippiOk = false ∨ w.delSysOk = false) →
      (execAppUpdate isFull skipUpdaterUpdate shouldLaunch isoPath prevVersion
          w).1 = Except.error "Error encountered updating app" ∧
      ((execAppUpdate isFull skipUpdaterUpdate shouldLaunch isoPath prevVersion
          w).2.all (fun e => !isWriteLike e)) = true) ∧
    noWriteBeforeSys (execAppUpdate isFull skipUpdaterUpdate shouldLaunch
      isoPath prevVersion w).2 = true ∧
    (((execAppUpdate isFull skipUpdaterUpdate shouldLaunch isoPath prevVersion
        w).2.any isWriteLike) = true →
      Event.deletePrev "Dolphin.exe" ∈ (execAppUpdate isFull skipUpdaterUpdate
        shouldLaunch isoPath prevVersion w).2 ∧
      Event.deletePrev "Slippi Dolphin.exe" ∈ (execAppUpdate isFull
        skipUpdaterUpdate shouldLaunch isoPath prevVersion w).2 ∧
      Event.deletePrev "Sys" ∈ (execAppUpdate isFull skipUpdaterUpdate
        shouldLaunch isoPath prevVersion w).2) := by
  rcases exec_install_split isFull skipUpdaterUpdate shouldLaunch isoPath
    prevVersion w h with ⟨r, hsp⟩ | ⟨r, ts, hsp⟩ | ⟨r, ts, u, hsp⟩ |
    ⟨ts, u, hsp⟩
  · refine ⟨fun _ => ⟨?_, ?_⟩, ?_, ?_⟩
    · rw [execAppUpdate_fst, hsp]
      rfl
    · rw [execAppUpdate_snd, hsp]
      rfl
    · rw [execAppUpdate_snd, hsp]
      rfl
    · intro hw
      rw [execAppUpdate_snd, hsp] at hw
      simp at hw
  · refine ⟨fun _ => ⟨?_, ?_⟩, ?_, ?_⟩
    · rw [execAppUpdate_fst, hsp]
      rfl
    · rw [execAppUpdate_snd, hsp]
      rfl
    · rw [execAppUpdate_snd, hsp]
      rfl
    · intro hw
      rw [execAppUpdate_snd, hsp] at hw
      simp [isWriteLike] at hw
  · refine ⟨fun _ => ⟨?_, ?_⟩, ?_, ?_⟩
    · rw [execAppUpdate_fst, hsp]
      rfl
    · rw [execAppUpdate_snd, hsp]
      rfl
    · rw [execAppUpdate_snd, hsp]
      rfl
    · intro hw
      rw [execAppUpdate_snd, hsp] at hw
      simp [isWriteLike] at hw
  · refine ⟨?_, ?_, ?_⟩
    · intro hfail
      obtain ⟨⟨msg, h1⟩, h2⟩ :=
        @installTail_delFail shouldLaunch isoPath prevVersion w hfail
      constructor
      · rw [execAppUpdate_fst, hsp]
        simp [h1, Except.mapError]
      · rw [execAppUpdate_snd, hsp]
        simp only [List.all_cons, Bool.and_eq_true]
        exact ⟨rfl, rfl, rfl, h2⟩
    · rw [execAppUpdate_snd, hsp]
      simp only [noWriteBeforeSys, isDeleteSys, isWriteLike, Bool.not_false,
        Bool.true_and, if_false]
      exact installTail_noWriteBeforeSys shouldLaunch isoPath prevVersion w
    · intro hw
      rw [execAppUpdate_snd, hsp] at hw
      simp only [List.any_cons, isWriteLike, Bool.false_or] at hw
      obtain ⟨m1, m2, m3⟩ := installTail_writes_deletes hw
      rw [execAppUpdate_snd, hsp]
      refine ⟨?_, ?_, ?_⟩ <;> simp [m1, m2, m3]

/-- An environment whose `Slippi Dolphin.exe` removal fails. -/
def wDelFail : World :=
  { wDemo with delSlippiOk := false }

/-- Witness for C10 at a concrete full-update run whose previous-install
deletion fails. -/
theorem c10_witness :
    (true || false) = true ∧
    (((wDelFail.delDolphinOk = false ∨ wDelFail.delSlippiOk = false ∨
        wDelFail.delSysOk = false) →
      (execAppUpdate true false false "game.iso" "2.3.0" wDelFail).1 =
        Except.error "Error encountered updating app" ∧
      ((execAppUpdate true false false "game.iso" "2.3.0" wDelFail).2.all
        (fun e => !isWriteLike e)) = true) ∧
    noWriteBeforeSys (execAppUpdate true false false "game.iso" "2.3.0"
      wDelFail).2 = true ∧
    (((execAppUpdate true false false "game.iso" "2.3.0" wDelFail).2.any
        isWriteLike) = true →
      Event.deletePrev "Dolphin.exe" ∈
        (execAppUpdate true false false "game.iso" "2.3.0" wDelFail).2 ∧
      Event.deletePrev "Slippi Dolphin.exe" ∈
        (execAppUpdate true false false "game.iso" "2.3.0" wDelFail).2 ∧
      Event.deletePrev "Sys" ∈
        (execAppUpdate true false false "game.iso" "2.3.0" wDelFail).2)) :=
  ⟨rfl, c10_delete_previous_before_extraction true false false "game.iso"
    "2.3.0" wDelFail rfl⟩

/-- C2 (code-bug evidence): the retry window admits at most 20 one-second
attempts; an entry recovering on attempt 19 is written, but an entry whose
attempts all fail leaves `extractFiles` returning SUCCESS, silently skipping
that entry while later entries are still extracted — the `err` the code
checks after the loop is the nil `err` of `file.Open()` (Go `:=` scoped the
loop's own `err` to the loop body), so a timed-out file never aborts the
extraction; only a `file.Open()` failure does. -/
theorem c2_retry_timeout_is_silently_skipped :
    retryWrite 19 = true ∧ retryWrite 20 = false ∧
    extractFiles true
      [{ name := "FM/Dolphin.exe" },
        { name := "FM/Sys/data.bin", failAttempts := 20 },
        { name := "FM/other.txt" }] GenKind.full =
      (true, [Event.beginPass GenKind.full,
        Event.write GenKind.full "other.txt"]) ∧
    extractFiles true
      [{ name := "FM/Dolphin.exe" },
        { name := "FM/Sys/data.bin", failAttempts := 3 },
        { name := "FM/other.txt" }] GenKind.full =
      (true, [Event.beginPass GenKind.full,
        Event.write GenKind.full "Sys\\data.bin",
        Event.write GenKind.full "other.txt"]) ∧
    extractFiles true
      [{ name := "FM/Dolphin.exe" },
        { name := "FM/Sys/data.bin", contentOpenOk := false },
        { name := "FM/other.txt" }] GenKind.full =
      (false, [Event.beginPass GenKind.full]) := by
  decide

/-- C3 counterexample: a request with the skip-updater flag unset but
`isFull` set takes the INSTALL path — the updater binary is never renamed,
the install path's staged-old-updater removal runs, and the run succeeds —
so "every request with `skipSelfUpdate = false` takes the self-update path"
fails. -/
theorem c3_counterexample :
    ((execAppUpdate true false false "game.iso" "2.3.0" wDemo).2.any
      (fun e =>
        match e with
        | Event.renameUpdater => true
        | _ => false)) = false ∧
    ((execAppUpdate true false false "game.iso" "2.3.0" wDemo).2.any
      isRemoveOld) = true ∧
    resultOk (execAppUpdate true false false "game.iso" "2.3.0" wDemo) =
      true := by
  decide

/-- Whether an event belongs to an updater-only extraction pass (tagged with
the updater selector and touching only the updater binary's name). -/
def isUpdaterPassEvent : Event → Bool
  | Event.beginPass g => g == GenKind.updater
  | Event.write g r => g == GenKind.updater && r == "dolphin-slippi-tools.exe"
  | Event.mkdir g r => g == GenKind.updater && r == "dolphin-slippi-tools.exe"
  | _ => false

/-- Every event of an updater-selector pass is an updater-pass event. -/
theorem updater_pass_events (z : Bool) (l : List ZipEntry) :
    ((extractFiles z l GenKind.updater).2.all isUpdaterPassEvent) = true := by
  rw [List.all_eq_true]
  intro e he
  rcases extractFiles_mem he with rfl | ⟨rel, hne, rfl | rfl⟩
  · rfl
  · have hadm := updaterUpdateGen_admit (p := rel) hne
    simp only [isUpdaterPassEvent, runGen, hadm.1, hadm.2]
    decide
  · have hadm := updaterUpdateGen_admit (p := rel) hne
    simp only [isUpdaterPassEvent, runGen, hadm.1, hadm.2]
    decide

/-- C3 amended: with `skipUpdaterUpdate = false` AND `isFull = false`, the
run takes the self-update path: no wait, fetch and download, rename of the
running updater, an updater-only extraction (admitting exactly the updater
binary), and the spawn of the new updater with `-skip-updater`, the launch
flag, the ISO and the previous version — returning success without waiting
for the child and without any install-path action. -/
theorem c3_self_update_path (shouldLaunch : Bool) (isoPath prevVersion : String)
    (w : World) (latest : dolphinVersion)
    (hex : w.exePathOk = true)
    (hv : getLatestVersion w.versions (containsSub prevVersion "-beta") =
      some latest)
    (htmp : w.tempDirOk = true) (hdl : w.downloadOk = true)
    (hre : w.renameOk = true)
    (hupd : (extractFiles w.zipOk w.entries GenKind.updater).1 = true)
    (hsp : w.spawnOk = true) :
    execAppUpdate false false shouldLaunch isoPath prevVersion w =
      (Except.ok (),
        Event.fetchVersion (getLatestTypes (containsSub prevVersion "-beta")) ::
          Event.download latest.url :: Event.renameUpdater ::
          ((extractFiles w.zipOk w.entries GenKind.updater).2 ++
            [Event.spawnChild "dolphin-slippi-tools.exe"
              ["app-update", "-skip-updater",
                "-launch=" ++ goBool shouldLaunch, "-iso", isoPath,
                "-version", prevVersion]])) ∧
    ((extractFiles w.zipOk w.entries GenKind.updater).2.all
      isUpdaterPassEvent) = true := by
  refine ⟨?_, updater_pass_events w.zipOk w.entries⟩
  unfold execAppUpdate execAppUpdateBody selfUpdateTail extractStep
  simp [hex, htmp, hdl, hre, hsp, hupd, hv, andThen, Except.mapError]

/-- Witness for the amended C3 at a concrete self-update run. -/
theorem c3_witness :
    wDemo.exePathOk = true ∧
    getLatestVersion wDemo.versions (containsSub "2.3.0" "-beta") =
      some demoRelease ∧
    wDemo.tempDirOk = true ∧ wDemo.downloadOk = true ∧ wDemo.renameOk = true ∧
    (extractFiles wDemo.zipOk wDemo.entries GenKind.updater).1 = true ∧
    wDemo.spawnOk = true ∧
    (execAppUpdate false false true "game.iso" "2.3.0" wDemo =
      (Except.ok (),
        Event.fetchVersion (getLatestTypes (containsSub "2.3.0" "-beta")) ::
          Event.download demoRelease.url :: Event.renameUpdater ::
          ((extractFiles wDemo.zipOk wDemo.entries GenKind.updater).2 ++
            [Event.spawnChild "dolphin-slippi-tools.exe"
              ["app-update", "-skip-updater", "-launch=" ++ goBool true,
                "-iso", "game.iso", "-version", "2.3.0"]])) ∧
      ((extractFiles wDemo.zipOk wDemo.entries GenKind.updater).2.all
        isUpdaterPassEvent) = true) :=
  ⟨rfl, by decide, rfl, rfl, rfl, by decide, rfl,
    c3_self_update_path true "game.iso" "2.3.0" wDemo demoRelease rfl
      (by decide) rfl rfl rfl (by decide) rfl⟩

/-- C5 counterexample: the partial selector admits the VCRuntime help text
file, which is neither a named configuration `.ini` file nor a match of the
game-data glob — so "exactly the named `.ini` files plus the glob" fails. -/
theorem c5_counterexample :
    partialUpdateGen "FIX-VCRUNTIME140-ERROR.txt" =
      "FIX-VCRUNTIME140-ERROR.txt" ∧
    goMatch "Sys/GameFiles/GALE01/*"
      (toSlash "FIX-VCRUNTIME140-ERROR.txt") = false ∧
    toSlash "FIX-VCRUNTIME140-ERROR.txt" ≠ "Sys/GameSettings/GALE01r2.ini" ∧
    toSlash "FIX-VCRUNTIME140-ERROR.txt" ≠ "Sys/GameSettings/GALJ01r2.ini" ∧
    toSlash "FIX-VCRUNTIME140-ERROR.txt" ≠ "User/GameSettings/GALE01.ini" ∧
    toSlash "FIX-VCRUNTIME140-ERROR.txt" ≠ "User/GameSettings/GALJ01r2.ini" := by
  decide

/-- C5 amended: the full selector admits exactly the paths that are not the
two executable names or the updater binary, and the partial selector admits
exactly its allow-list — the VCRuntime help text file, the
`Sys/GameFiles/GALE01/*` glob matches, and the four named `.ini` files —
excluding in particular both executables and the updater binary. -/
theorem c5_selector_characterization (p : String) (h : p ≠ "") :
    (fullUpdateGen p ≠ "" ↔
      ¬ (toSlash p = "Dolphin.exe" ∨ toSlash p = "Slippi Dolphin.exe" ∨
        toSlash p = "dolphin-slippi-tools.exe")) ∧
    (partialUpdateGen p ≠ "" ↔
      (toSlash p = "FIX-VCRUNTIME140-ERROR.txt" ∨
        goMatch "Sys/GameFiles/GALE01/*" (toSlash p) = true ∨
        toSlash p = "Sys/GameSettings/GALE01r2.ini" ∨
        toSlash p = "Sys/GameSettings/GALJ01r2.ini" ∨
        toSlash p = "User/GameSettings/GALE01.ini" ∨
        toSlash p = "User/GameSettings/GALJ01r2.ini")) ∧
    partialUpdateGen "Dolphin.exe" = "" ∧
    partialUpdateGen "Slippi Dolphin.exe" = "" ∧
    partialUpdateGen "dolphin-slippi-tools.exe" = "" := by
  refine ⟨?_, ?_, by decide, by decide, by decide⟩
  · rw [fullUpdateGen_eq]
    by_cases hc : toSlash p = "Dolphin.exe" ∨ toSlash p = "Slippi Dolphin.exe" ∨
        toSlash p = "dolphin-slippi-tools.exe"
    · simp [hc]
    · simp [hc, h]
  · unfold partialUpdateGen
    by_cases h1 : toSlash p = "FIX-VCRUNTIME140-ERROR.txt"
    · simp [h1, h]
    · by_cases h2 : goMatch "Sys/GameFiles/GALE01/*" (toSlash p) = true
      · simp [h1, h2, h]
      · by_cases h3 : toSlash p = "Sys/GameSettings/GALE01r2.ini" ∨
            toSlash p = "Sys/GameSettings/GALJ01r2.ini"
        · rcases h3 with h3 | h3 <;> simp [h1, h2, h3, h]
        · by_cases h4 : toSlash p = "User/GameSettings/GALE01.ini" ∨
              toSlash p = "User/GameSettings/GALJ01r2.ini"
          · rcases h4 with h4 | h4 <;> simp [h1, h2, h3, h4, h]
          · push_neg at h3 h4
            simp [h1, h2, h3.1, h3.2, h4.1, h4.2]

/-- Witness for the amended C5 at a concrete game-data path. -/
theorem c5_witness :
    "Sys/GameFiles/GALE01/PlCa.dat" ≠ "" ∧
    ((fullUpdateGen "Sys/GameFiles/GALE01/PlCa.dat" ≠ "" ↔
      ¬ (toSlash "Sys/GameFiles/GALE01/PlCa.dat" = "Dolphin.exe" ∨
        toSlash "Sys/GameFiles/GALE01/PlCa.dat" = "Slippi Dolphin.exe" ∨
        toSlash "Sys/GameFiles/GALE01/PlCa.dat" = "dolphin-slippi-tools.exe")) ∧
    (partialUpdateGen "Sys/GameFiles/GALE01/PlCa.dat" ≠ "" ↔
      (toSlash "Sys/GameFiles/GALE01/PlCa.dat" = "FIX-VCRUNTIME140-ERROR.txt" ∨
        goMatch "Sys/GameFiles/GALE01/*"
          (toSlash "Sys/GameFiles/GALE01/PlCa.dat") = true ∨
        toSlash "Sys/GameFiles/GALE01/PlCa.dat" =
          "Sys/GameSettings/GALE01r2.ini" ∨
        toSlash "Sys/GameFiles/GALE01/PlCa.dat" =
          "Sys/GameSettings/GALJ01r2.ini" ∨
        toSlash "Sys/GameFiles/GALE01/PlCa.dat" =
          "User/GameSettings/GALE01.ini" ∨
        toSlash "Sys/GameFiles/GALE01/PlCa.dat" =
          "User/GameSettings/GALJ01r2.ini")) ∧
    partialUpdateGen "Dolphin.exe" = "" ∧
    partialUpdateGen "Slippi Dolphin.exe" = "" ∧
    partialUpdateGen "dolphin-slippi-tools.exe" = "") :=
  ⟨by decide, c5_selector_characterization "Sys/GameFiles/GALE01/PlCa.dat"
    (by decide)⟩

/-- Whether an event is the redistributable installer subprocess run. -/
def isVcrRun : Event → Bool
  | Event.vcrRun _ => true
  | _ => false

/-- C7: with the redistributable downloaded and its version info readable,
`installVcr` never runs the installer subprocess when the registry-read
version string (empty when absent) equals the installer's embedded version,
runs it exactly once when they differ, and then succeeds exactly on exit
status 0 (plain success), 1638 (already installed) or 3010 (installed,
restart recommended); any other non-zero status is the run's failure. -/
theorem c7_vcr_reconciliation (w : World)
    (h1 : w.vcrDownloadOk = true) (h2 : w.vcrInfoOk = true) :
    (getCurrentVcrVersion w.vcrRegistry = getInstallerVcrVersion w.vcrInstaller →
      ((installVcr w).2.filter isVcrRun) = [] ∧
      installVcr w =
        (Except.ok (),
          [Event.download vcrUrl,
            Event.vcrCheck (getCurrentVcrVersion w.vcrRegistry)
              (getInstallerVcrVersion w.vcrInstaller)])) ∧
    (getCurrentVcrVersion w.vcrRegistry ≠ getInstallerVcrVersion w.vcrInstaller →
      ((installVcr w).2.filter isVcrRun) = [Event.vcrRun w.vcrExit] ∧
      ((installVcr w).1 = Except.ok () ↔
        (w.vcrExit = 0 ∨ w.vcrExit = 1638 ∨ w.vcrExit = 3010))) := by
  constructor
  · intro heq
    unfold installVcr
    simp [h1, h2, heq, isVcrRun]
  · intro hne
    unfold installVcr
    by_cases hx : w.vcrExit = 0 ∨ w.vcrExit = 1638 ∨ w.vcrExit = 3010
    · simp [h1, h2, hne, hx, isVcrRun]
    · simp [h1, h2, hne, hx, isVcrRun]

/-- Witness for C7: no runtime registered, installer version 14.29.0.0,
installer exiting 0. -/
theorem c7_witness :
    wDemo.vcrDownloadOk = true ∧ wDemo.vcrInfoOk = true ∧
    ((getCurrentVcrVersion wDemo.vcrRegistry =
        getInstallerVcrVersion wDemo.vcrInstaller →
      ((installVcr wDemo).2.filter isVcrRun) = [] ∧
      installVcr wDemo =
        (Except.ok (),
          [Event.download vcrUrl,
            Event.vcrCheck (getCurrentVcrVersion wDemo.vcrRegistry)
              (getInstallerVcrVersion wDemo.vcrInstaller)])) ∧
    (getCurrentVcrVersion wDemo.vcrRegistry ≠
        getInstallerVcrVersion wDemo.vcrInstaller →
      ((installVcr wDemo).2.filter isVcrRun) = [Event.vcrRun wDemo.vcrExit] ∧
      ((installVcr wDemo).1 = Except.ok () ↔
        (wDemo.vcrExit = 0 ∨ wDemo.vcrExit = 1638 ∨ wDemo.vcrExit = 3010)))) :=
  ⟨rfl, rfl, c7_vcr_reconciliation wDemo rfl rfl⟩


/-- One `pickLater` step yields a row at least as recent as its input row
and as anything already accumulated, which is either that row or the
accumulator. -/
theorem pickLater_spec (acc : Option dolphinVersion) (x : dolphinVersion) :
    ∃ a, pickLater acc x = some a ∧ x.releasedAt ≤ a.releasedAt ∧
      (∀ m, acc = some m → m.releasedAt ≤ a.releasedAt) ∧
      (a = x ∨ acc = some a) := by
  cases acc with
  | none => exact ⟨x, rfl, le_refl _, by simp, Or.inl rfl⟩
  | some m =>
    by_cases hlt : m.releasedAt < x.releasedAt
    · refine ⟨x, by simp [pickLater, hlt], le_refl _, ?_, Or.inl rfl⟩
      intro m2 hm
      injection hm with hh
      subst hh
      exact le_of_lt hlt
    · refine ⟨m, by simp [pickLater, hlt], not_lt.mp hlt, ?_, Or.inr rfl⟩
      intro m2 hm
      injection hm with hh
      subst hh
      exact le_refl _

/-- Folding `pickLater` returns a row of the list (or the accumulator) whose
`releasedAt` dominates the whole list and the accumulator. -/
theorem foldl_pickLater_spec :
    ∀ (l : List dolphinVersion) (acc : Option dolphinVersion)
      (v : dolphinVersion), l.foldl pickLater acc = some v →
      (v ∈ l ∨ acc = some v) ∧ (∀ u ∈ l, u.releasedAt ≤ v.releasedAt) ∧
      (∀ m, acc = some m → m.releasedAt ≤ v.releasedAt) := by
  intro l
  induction l with
  | nil =>
    intro acc v hfold
    refine ⟨Or.inr hfold, by simp, ?_⟩
    intro m hm
    rw [hm] at hfold
    injection hfold with hh
    subst hh
    exact le_refl _
  | cons x t ih =>
    intro acc v hfold
    rw [List.foldl_cons] at hfold
    obtain ⟨hmem, hmax, hacc⟩ := ih (pickLater acc x) v hfold
    obtain ⟨a, ha, hxa, hacca, hax⟩ := pickLater_spec acc x
    have hav : a.releasedAt ≤ v.releasedAt := hacc a ha
    refine ⟨?_, ?_, ?_⟩
    · rcases hmem with hm | hm
      · exact Or.inl (List.mem_cons_of_mem _ hm)
      · rw [ha] at hm
        injection hm with hh
        subst hh
        rcases hax with rfl | hacc2
        · exact Or.inl (List.mem_cons_self _ _)
        · exact Or.inr hacc2
    · intro u hu
      rcases List.mem_cons.mp hu with rfl | hu
      · exact le_trans hxa hav
      · exact hmax u hu
    · intro m hm
      exact le_trans (hacca m hm) hav

/-- The query returns a row of the filtered set that no filtered row
out-dates. -/
theorem queryLatest_spec {rows : List dolphinVersion} {types : List String}
    {v : dolphinVersion} (hq : queryLatest rows types = some v) :
    v ∈ rows.filter (fun r => types.contains r.type) ∧
    ∀ u ∈ rows.filter (fun r => types.contains r.type),
      u.releasedAt ≤ v.releasedAt := by
  unfold queryLatest at hq
  obtain ⟨hmem, hmax, _⟩ := foldl_pickLater_spec _ none v hq
  rcases hmem with hm | hm
  · exact ⟨hm, hmax⟩
  · simp at hm

/-- Whenever the release query succeeds, the run's trace records the channel
query and the download of the selected descriptor's URL. -/
theorem exec_fetch_download_mem (isFull skipUpdaterUpdate shouldLaunch : Bool)
    (isoPath prevVersion : String) (w : World) (v : dolphinVersion)
    (hex : w.exePathOk = true) (htmp : w.tempDirOk = true)
    (hv : getLatestVersion w.versions (containsSub prevVersion "-beta") =
      some v) :
    Event.fetchVersion (getLatestTypes (containsSub prevVersion "-beta")) ∈
      (execAppUpdate isFull skipUpdaterUpdate shouldLaunch isoPath prevVersion
        w).2 ∧
    Event.download v.url ∈
      (execAppUpdate isFull skipUpdaterUpdate shouldLaunch isoPath prevVersion
        w).2 := by
  refine ⟨?_, ?_⟩ <;>
    (rw [execAppUpdate_snd]
     unfold execAppUpdateBody
     by_cases hdl : w.downloadOk <;>
       cases hio : (isFull || skipUpdaterUpdate) <;>
         cases hbc : (!isFull && !skipUpdaterUpdate) <;>
           simp [hex, hv, htmp, hdl, hio, hbc])

/-- C8: the channel-type set is exactly `["ishii"]` when the previous
version string does not contain `-beta` and `["ishii", "ishii-beta"]` when
it does; the descriptor the query returns belongs to the selected channels
and no selected-channel row is more recent; and an orchestration run with
that registry queries those channels and downloads exactly that
descriptor's URL. -/
theorem c8_channel_selection (prevVersion : String)
    (rows : List dolphinVersion) (v : dolphinVersion)
    (hv : getLatestVersion rows (containsSub prevVersion "-beta") = some v) :
    (containsSub prevVersion "-beta" = false →
      getLatestTypes (containsSub prevVersion "-beta") = ["ishii"]) ∧
    (containsSub prevVersion "-beta" = true →
      getLatestTypes (containsSub prevVersion "-beta") =
        ["ishii", "ishii-beta"]) ∧
    v ∈ rows.filter (fun r =>
      (getLatestTypes (containsSub prevVersion "-beta")).contains r.type) ∧
    (∀ u ∈ rows.filter (fun r =>
        (getLatestTypes (containsSub prevVersion "-beta")).contains r.type),
      u.releasedAt ≤ v.releasedAt) ∧
    (∀ (isFull skipUpdaterUpdate shouldLaunch : Bool) (isoPath : String)
      (w : World), w.exePathOk = true → w.tempDirOk = true →
      w.versions = rows →
      Event.fetchVersion (getLatestTypes (containsSub prevVersion "-beta")) ∈
        (execAppUpdate isFull skipUpdaterUpdate shouldLaunch isoPath
          prevVersion w).2 ∧
      Event.download v.url ∈
        (execAppUpdate isFull skipUpdaterUpdate shouldLaunch isoPath
          prevVersion w).2) := by
  obtain ⟨hmem, hmax⟩ :=
    @queryLatest_spec rows (getLatestTypes (containsSub prevVersion "-beta"))
      v hv
  refine ⟨?_, ?_, hmem, hmax, ?_⟩
  · intro hb
    simp [getLatestTypes, hb]
  · intro hb
    simp [getLatestTypes, hb]
  · intro isFull skipUpdaterUpdate shouldLaunch isoPath w hex htmp hrows
    exact exec_fetch_download_mem isFull skipUpdaterUpdate shouldLaunch
      isoPath prevVersion w v hex htmp (by rw [hrows]; exact hv)

/-- A beta release row, more recent than the stable demo release. -/
def betaRelease : dolphinVersion :=
  { url := "https://example.test/beta.zip"
    version := "2.4.0-beta"
    releasedAt := 20
    type := "ishii-beta" }

/-- A two-row release service: the stable demo release and a newer beta. -/
def betaRows : List dolphinVersion :=
  [demoRelease, betaRelease]

/-- Witness for C8: a beta previous version over a two-row service, where
the most recent beta release is selected. -/
theorem c8_witness :
    getLatestVersion betaRows (containsSub "2.4.0-beta" "-beta") =
      some betaRelease ∧
    ((containsSub "2.4.0-beta" "-beta" = false →
      getLatestTypes (containsSub "2.4.0-beta" "-beta") = ["ishii"]) ∧
    (containsSub "2.4.0-beta" "-beta" = true →
      getLatestTypes (containsSub "2.4.0-beta" "-beta") =
        ["ishii", "ishii-beta"]) ∧
    betaRelease ∈ betaRows.filter (fun r =>
      (getLatestTypes (containsSub "2.4.0-beta" "-beta")).contains r.type) ∧
    (∀ u ∈ betaRows.filter (fun r =>
        (getLatestTypes (containsSub "2.4.0-beta" "-beta")).contains r.type),
      u.releasedAt ≤ betaRelease.releasedAt) ∧
    (∀ (isFull skipUpdaterUpdate shouldLaunch : Bool) (isoPath : String)
      (w : World), w.exePathOk = true → w.tempDirOk = true →
      w.versions = betaRows →
      Event.fetchVersion (getLatestTypes (containsSub "2.4.0-beta" "-beta")) ∈
        (execAppUpdate isFull skipUpdaterUpdate shouldLaunch isoPath
          "2.4.0-beta" w).2 ∧
      Event.download betaRelease.url ∈
        (execAppUpdate isFull skipUpdaterUpdate shouldLaunch isoPath
          "2.4.0-beta" w).2)) :=
  ⟨by decide, c8_channel_selection "2.4.0-beta" betaRows betaRelease
    (by decide)⟩
